import Mathlib

/-!
Shallow embedding of the AKRIN AI chatbot backend (Python) in Lean 4,
with theorems settling the frozen claims about its specification.

Conventions:
* Python dicts that preserve insertion order (`dict`, `OrderedDict`) are
  embedded as association lists `List (String × α)`; the head of the list
  is the oldest (first-inserted) binding.
* Python `float` arithmetic on the scores appearing here is exact (all
  values are small dyadic rationals), so scores are embedded as `ℚ`.
* Wall-clock time (`datetime.utcnow()`) is threaded explicitly as an
  integer parameter (`ℤ`, seconds).  The expiry comparison `age > ttl` is
  order-theoretic only, so integral instants carry the claims' content.
* `str.lower` is embedded via `Char.toLower` (ASCII case folding); every
  string the claims exercise is ASCII.
-/

/-! ## String helpers shared by the embedded components -/

/-- Lower-case a string character by character (Python `str.lower()`). -/
def lowerStr (s : String) : String := String.mk (s.data.map Char.toLower)

/-- Whether `pat` occurs as a contiguous sublist of `l`
(the character-level model of Python `pat in s`). -/
def isSubChars (pat : List Char) : List Char → Bool
  | [] => pat.isEmpty
  | c :: rest => pat.isPrefixOf (c :: rest) || isSubChars pat rest

/-- Python substring containment `pat in hay`. -/
def strContainsSub (hay pat : String) : Bool := isSubChars pat.data hay.data

/-- Python `str.split()` word-splitting characters (ASCII whitespace). -/
def pyIsSpace (c : Char) : Bool :=
  c = ' ' || c = '\t' || c = '\n' || c = '\x0d' || c = '\x0b' || c = '\x0c'

/-- Python `s.split()`: split on runs of whitespace, dropping empty pieces. -/
def pyWords (s : String) : List String :=
  ((s.data.splitOnP (pyIsSpace · = true)).map String.mk).filter (fun w => w ≠ "")

/-- Python `s.strip()`: drop leading and trailing whitespace. -/
def pyStrip (s : String) : String :=
  String.mk (((s.data.dropWhile (pyIsSpace · = true)).reverse.dropWhile
    (pyIsSpace · = true)).reverse)

/-- First value bound to `k` in an association list (Python `d.get(k)`). -/
def lookupKey {α : Type} (k : String) : List (String × α) → Option α
  | [] => none
  | (k', v) :: rest => if k' = k then some v else lookupKey k rest

/-- Remove the binding of `k` (Python `del d[k]`, key occurs at most once). -/
def eraseKey {α : Type} (k : String) : List (String × α) → List (String × α)
  | [] => []
  | (k', v) :: rest => if k' = k then rest else (k', v) :: eraseKey k rest

/-- Set `k` to `v`, keeping the binding at its old position when present
(plain Python `d[k] = v` on an insertion-ordered dict). -/
def setKey {α : Type} (k : String) (v : α) : List (String × α) → List (String × α)
  | [] => [(k, v)]
  | (k', v') :: rest => if k' = k then (k, v) :: rest else (k', v') :: setKey k v rest

/-! ## NLP engine (src/core/nlp_engine.py) -/

/-- The closed intent enumeration `Intent`. -/
inductive Intent where
  | greeting
  | farewell
  | tech_support
  | password_reset
  | service_status
  | create_ticket
  | billing_inquiry
  | general_inquiry
  | human_handoff
  | unknown
deriving DecidableEq, Repr

/-- The fixed keyword table `intent_patterns` of `IntentRecognizer.process`,
in source order. -/
def intentPatterns : List (Intent × List String) :=
  [ (Intent.greeting, ["hello", "hi", "hey", "good morning"])
  , (Intent.farewell, ["bye", "goodbye", "see you", "thanks"])
  , (Intent.password_reset, ["password", "reset", "forgot", "can't login"])
  , (Intent.service_status, ["status", "down", "working", "issue"])
  , (Intent.create_ticket, ["ticket", "problem", "help", "support"])
  , (Intent.billing_inquiry, ["bill", "invoice", "payment", "charge"])
  , (Intent.human_handoff, ["human", "agent", "person", "talk to someone"]) ]

/-- The `scores` dict built by `IntentRecognizer.process`: for each intent,
count the keywords occurring in the lowered text; keep `count / len(patterns)`
only when the count is positive.  Insertion order follows the table order. -/
def buildScores (textLower : String) : List (Intent × List String) → List (Intent × ℚ)
  | [] => []
  | (i, ps) :: rest =>
      let n := ps.countP (fun p => strContainsSub textLower p)
      if 0 < n then (i, (n : ℚ) / (ps.length : ℚ)) :: buildScores textLower rest
      else buildScores textLower rest

/-- Python `max(scores, key=scores.get)`: fold keeping the first-encountered
maximum (a later entry replaces the best one only when strictly greater). -/
def pickMax : (Intent × ℚ) → List (Intent × ℚ) → Intent × ℚ
  | best, [] => best
  | best, c :: cs => pickMax (if best.2 < c.2 then c else best) cs

/-- `IntentRecognizer.process`: rule-based intent detection. -/
def IntentRecognizer.process (text : String) : Intent × ℚ :=
  let textLower := lowerStr text
  match buildScores textLower intentPatterns with
  | [] => (Intent.unknown, 0)
  | x :: xs => pickMax x xs

/-- The per-intent keyword fraction the spec describes: matched keywords
over total keywords of the intent (on the lower-cased text). -/
def intentFraction (text : String) (ps : List String) : ℚ :=
  ((ps.countP (fun p => strContainsSub (lowerStr text) p)) : ℚ) / (ps.length : ℚ)

/-- Proof device: process the raw keyword table directly, carrying the best
`(intent, score)` seen so far; equivalent to `buildScores` + `pickMax`. -/
def pickBest (tl : String) : List (Intent × List String) → (Intent × ℚ) → Intent × ℚ
  | [], best => best
  | (i, ps) :: rest, best =>
      let s := ((ps.countP (fun p => strContainsSub tl p) : ℚ)) / (ps.length : ℚ)
      pickBest tl rest (if best.2 < s then (i, s) else best)

/-- The dialogue state record `DialogueState`. -/
structure DialogueState where
  session_id : String
  user_id : Option String := none
  current_intent : Option Intent := none
  turn_count : ℕ := 0
  entities_collected : List (String × String) := []
  awaiting_info : Option String := none
  handoff_requested : Bool := false
deriving DecidableEq, Repr

/-- `DialogueManager.should_handoff`: decide whether to escalate to a human. -/
def DialogueManager.should_handoff (state : DialogueState) : Bool :=
  if state.handoff_requested = true ∨ state.current_intent = some Intent.human_handoff then
    true
  else if 10 < state.turn_count then
    true
  else if state.current_intent = some Intent.unknown ∧ 2 < state.turn_count then
    true
  else
    false

/-! ## Entity extraction (src/core/nlp_engine.py, `EntityExtractor`)

The two `re.finditer` scans are embedded as explicit left-to-right scanners
implementing the backtracking semantics of the fixed patterns
`\b[A-Za-z0-9._%+-]+@[A-Za-z0-9.-]+\.[A-Z|a-z]{2,}\b` and
`\b(?:ticket|case)\s*#?\s*(\d+)\b` (the latter case-insensitive). -/

/-- An extracted entity (`Entity`). -/
structure Entity where
  type : String
  value : String
  confidence : ℚ
  start_pos : ℕ
  end_pos : ℕ
deriving DecidableEq, Repr

/-- Python `re` word character (ASCII fragment of `\w`). -/
def isWordChar (c : Char) : Bool := c.isAlphanum || c = '_'

/-- Word-boundary `\b` between two optional characters. -/
def wordBoundary (a b : Option Char) : Bool :=
  (match a with | none => false | some c => isWordChar c) ≠
    (match b with | none => false | some c => isWordChar c)

/-- Length of the maximal prefix run satisfying `P` (a greedy `+`/`*`). -/
def runLen (P : Char → Bool) : List Char → ℕ
  | [] => 0
  | c :: rest => if P c then runLen P rest + 1 else 0

/-- Character class `[A-Za-z0-9._%+-]` (email local part). -/
def isLocalChar (c : Char) : Bool :=
  c.isAlphanum || c = '.' || c = '_' || c = '%' || c = '+' || c = '-'

/-- Character class `[A-Za-z0-9.-]` (email domain). -/
def isDomChar (c : Char) : Bool := c.isAlphanum || c = '.' || c = '-'

/-- Character class `[A-Z|a-z]` (email TLD; the class literally contains `|`). -/
def isTldChar (c : Char) : Bool := c.isAlpha || c = '|'

/-- Backtrack the greedy `[A-Z|a-z]{2,}` down from `m` characters until the
trailing `\b` holds; returns the accepted length. -/
def tryTldLen (tl : List Char) (m : ℕ) : Option ℕ :=
  match m with
  | 0 => none
  | 1 => none
  | mm + 2 =>
      if wordBoundary (tl.get? (mm + 1)) (tl.get? (mm + 2)) then some (mm + 2)
      else tryTldLen tl (mm + 1)

/-- Backtrack the greedy domain run: try the rightmost `.` split first
(`j` is the candidate index of `\.` inside `dom`, counted down to 1);
returns the total number of domain characters matched (`j + 1 + tld`). -/
def tryDomSplit (dom : List Char) : ℕ → Option ℕ
  | 0 => none
  | j + 1 =>
      if dom.get? (j + 1) = some '.' then
        match tryTldLen (dom.drop (j + 2)) (runLen isTldChar (dom.drop (j + 2))) with
        | some m => some (j + 2 + m)
        | none => tryDomSplit dom j
      else tryDomSplit dom j

/-- Attempt the email pattern anchored at the head of `cs` (`prev` is the
character before the anchor, for `\b`); returns the match length. -/
def matchEmailAt (prev : Option Char) (cs : List Char) : Option ℕ :=
  if wordBoundary prev cs.head? = false then none
  else
    let lcl := runLen isLocalChar cs
    if lcl = 0 then none
    else
      let rest1 := cs.drop lcl
      if rest1.head? ≠ some '@' then none
      else
        let dom := rest1.drop 1
        let drun := runLen isDomChar dom
        if drun = 0 then none
        else
          match tryDomSplit dom (drun - 1) with
          | some dlen => some (lcl + 1 + dlen)
          | none => none

/-- `re.finditer` scan for the email pattern: try each position left to
right, emit non-overlapping matches, resume after each match. -/
def scanEmails (fuel : ℕ) (prev : Option Char) (cs : List Char) (pos : ℕ) :
    List Entity :=
  match fuel with
  | 0 => []
  | fuel + 1 =>
      match cs with
      | [] => []
      | c :: rest =>
          match matchEmailAt prev cs with
          | some len =>
              { type := "email", value := String.mk (cs.take len), confidence := 95/100,
                start_pos := pos, end_pos := pos + len } ::
                scanEmails fuel ((cs.take len).getLast? ) (cs.drop len) (pos + len)
          | none => scanEmails fuel (some c) rest (pos + 1)

/-- Attempt the ticket pattern anchored at the head of `cs`; returns
`(total match length, digit group)`. -/
def matchTicketAt (prev : Option Char) (cs : List Char) : Option (ℕ × String) :=
  if wordBoundary prev cs.head? = false then none
  else
    let lower := cs.map Char.toLower
    let kw : Option ℕ :=
      if ("ticket".data).isPrefixOf lower then some 6
      else if ("case".data).isPrefixOf lower then some 4
      else none
    match kw with
    | none => none
    | some k =>
        let r1 := cs.drop k
        let w1 := runLen (fun c => pyIsSpace c) r1
        let r2 := r1.drop w1
        let (hash, r3) := if r2.head? = some '#' then (1, r2.drop 1) else (0, r2)
        let w2 := runLen (fun c => pyIsSpace c) r3
        let r4 := r3.drop w2
        let d := runLen Char.isDigit r4
        if d = 0 then none
        else if wordBoundary (r4.get? (d - 1)) (r4.get? d) then
          some (k + w1 + hash + w2 + d, String.mk (r4.take d))
        else none

/-- `re.finditer` scan for the ticket pattern. -/
def scanTickets (fuel : ℕ) (prev : Option Char) (cs : List Char) (pos : ℕ) :
    List Entity :=
  match fuel with
  | 0 => []
  | fuel + 1 =>
      match cs with
      | [] => []
      | c :: rest =>
          match matchTicketAt prev cs with
          | some (len, digits) =>
              { type := "ticket_number", value := digits, confidence := 9/10,
                start_pos := pos, end_pos := pos + len } ::
                scanTickets fuel ((cs.take len).getLast?) (cs.drop len) (pos + len)
          | none => scanTickets fuel (some c) rest (pos + 1)

/-- `EntityExtractor.process`: all email entities, then all ticket entities. -/
def EntityExtractor.process (text : String) : List Entity :=
  scanEmails (text.data.length + 1) none text.data 0 ++
    scanTickets (text.data.length + 1) none text.data 0

/-! ## Dialogue manager and engine facade -/

/-- Result of NLU processing (`NLUResult`). -/
structure NLUResult where
  intent : Intent
  intent_confidence : ℚ
  entities : List Entity
  original_text : String
  processed_text : String
deriving DecidableEq, Repr

/-- `DialogueManager.get_or_create_session`. -/
def DialogueManager.get_or_create_session (sessions : List (String × DialogueState))
    (sid : String) (uid : Option String) :
    List (String × DialogueState) × DialogueState :=
  match lookupKey sid sessions with
  | some st => (sessions, st)
  | none =>
      let st : DialogueState :=
        { session_id := sid, user_id := uid, current_intent := none, turn_count := 0,
          entities_collected := [], awaiting_info := none, handoff_requested := false }
      (sessions ++ [(sid, st)], st)

/-- The fixed `required_info` table of `DialogueManager._check_missing_info`. -/
def requiredInfo : List (Intent × List String) :=
  [ (Intent.password_reset, ["email"])
  , (Intent.create_ticket, ["issue_description"])
  , (Intent.service_status, ["service_name"]) ]

/-- Entry of the required-info table for the (optional) current intent. -/
def findRequired : Option Intent → List (Intent × List String) → Option (List String)
  | _, [] => none
  | oi, (i, infos) :: rest => if oi = some i then some infos else findRequired oi rest

/-- `DialogueManager._check_missing_info`: first still-missing field. -/
def DialogueManager.check_missing_info (state : DialogueState) : Option String :=
  match findRequired state.current_intent requiredInfo with
  | none => none
  | some infos => infos.find? (fun info => (lookupKey info state.entities_collected).isNone)

/-- `DialogueManager.update_state`: set intent, bump the turn counter, fold
entities into `entities_collected`, recompute `awaiting_info`. -/
def DialogueManager.update_state (sessions : List (String × DialogueState))
    (sid : String) (intent : Intent) (entities : List Entity) :
    List (String × DialogueState) × DialogueState :=
  let (s1, state) := DialogueManager.get_or_create_session sessions sid none
  let st1 : DialogueState :=
    { state with
        current_intent := some intent
      , turn_count := state.turn_count + 1
      , entities_collected :=
          entities.foldl (fun m e => setKey e.type e.value m) state.entities_collected }
  let st2 : DialogueState := { st1 with awaiting_info := DialogueManager.check_missing_info st1 }
  (setKey sid st2 s1, st2)

/-- `NLPEngine.process_message`: run recognition and extraction, update the
dialogue state, return the `NLUResult` (sessions map threaded explicitly). -/
def NLPEngine.process_message (sessions : List (String × DialogueState))
    (text : String) (sid : String) (uid : Option String) :
    List (String × DialogueState) × NLUResult :=
  let (s1, _) := DialogueManager.get_or_create_session sessions sid uid
  let (intent, confidence) := IntentRecognizer.process text
  let entities := EntityExtractor.process text
  let (s2, _) := DialogueManager.update_state s1 sid intent entities
  (s2, { intent := intent, intent_confidence := confidence, entities := entities,
         original_text := text, processed_text := pyStrip (lowerStr text) })

/-- The `.value` string of each `Intent` member. -/
def intentValue : Intent → String
  | .greeting => "greeting"
  | .farewell => "farewell"
  | .tech_support => "tech_support"
  | .password_reset => "password_reset"
  | .service_status => "service_status"
  | .create_ticket => "create_ticket"
  | .billing_inquiry => "billing_inquiry"
  | .general_inquiry => "general_inquiry"
  | .human_handoff => "human_handoff"
  | .unknown => "unknown"

/-! ## RAG pipeline (src/knowledge/rag_module.py) -/

/-- A knowledge-base document (`Document`); the metadata bag holds the
string-valued fields used by the mock documents. -/
structure Document where
  id : String
  content : String
  title : String
  source : String
  metadata : List (String × String)
deriving DecidableEq, Repr

/-- `RetrievalResult`. -/
structure RetrievalResult where
  documents : List Document
  scores : List ℚ
  query : String
  refined_query : String
deriving DecidableEq, Repr

/-- The `validation_results` dict built by `ResponseValidator.validate`
(`warnings` is always empty in the source and is omitted). -/
structure ValidationResults where
  checks_passed : List String
  checks_failed : List (String × String)
  confidence : ℚ
deriving DecidableEq, Repr

/-- The metadata bag of a `GenerationResult`. -/
structure GenMetadata where
  refined_query : String
  retrieval_scores : List ℚ
  validation_details : Option ValidationResults
  document_count : ℕ
deriving DecidableEq, Repr

/-- `GenerationResult`. -/
structure GenerationResult where
  response : String
  confidence : ℚ
  sources : List String
  validation_passed : Bool
  metadata : GenMetadata
deriving DecidableEq, Repr

/-- The conversation-context dict passed to `EnhancedRAG.process`; the chat
router builds it from intent, entities, session id and turn count and never
sets `previous_intent`. -/
structure RagContext where
  intent : Option String := none
  entities : List (String × String) := []
  session_id : Option String := none
  turn_count : Option ℕ := none
  previous_intent : Option String := none
deriving DecidableEq, Repr

/-- Replace every non-overlapping occurrence of `p :: ps` by `repl`, left
to right (Python `str.replace`).  Each step consumes at least one input
character, so fuel `input length + 1` makes the recursion structural. -/
def replaceChars (p : Char) (ps repl : List Char) : ℕ → List Char → List Char
  | 0, l => l
  | _, [] => []
  | fuel + 1, c :: rest =>
      if (p :: ps).isPrefixOf (c :: rest) then
        repl ++ replaceChars p ps repl fuel (rest.drop ps.length)
      else c :: replaceChars p ps repl fuel rest

/-- Python `s.replace(pat, repl)` (for the nonempty patterns used here). -/
def pyReplace (s pat repl : String) : String :=
  match pat.data with
  | [] => s
  | p :: ps => String.mk (replaceChars p ps repl.data (s.data.length + 1) s.data)

/-- The fixed abbreviation table of `QueryRefiner.refine_query`, in source
(dict insertion) order. -/
def abbreviations : List (String × String) :=
  [ ("vm", "virtual machine")
  , ("db", "database")
  , ("api", "application programming interface")
  , ("vpn", "virtual private network")
  , ("ssl", "secure socket layer")
  , ("dns", "domain name system") ]

/-- `QueryRefiner.refine_query`: lower-case and trim, expand space-delimited
abbreviations, and prepend the previous turn's intent when present. -/
def QueryRefiner.refine_query (original_query : String) (context : RagContext) : String :=
  let refined := pyStrip (lowerStr original_query)
  let refined := abbreviations.foldl
    (fun r ab => pyReplace r (" " ++ ab.1 ++ " ") (" " ++ ab.2 ++ " ")) refined
  match context.previous_intent with
  | some pi => pi ++ " " ++ refined
  | none => refined

/-- The two hard-coded `mock_documents` of `SemanticRetriever.retrieve`
(used because no vector store is configured in this repository). -/
def mockDocuments : List Document :=
  [ { id := "doc1"
    , content := "To reset your password, click on 'Forgot Password' on the login page."
    , title := "Password Reset Guide"
    , source := "knowledge_base"
    , metadata := [("category", "authentication"), ("last_updated", "2024-01-15")] }
  , { id := "doc2"
    , content := "Our IT support services include 24/7 monitoring, incident response, and system maintenance."
    , title := "IT Support Services Overview"
    , source := "service_catalog"
    , metadata := [("category", "services"), ("last_updated", "2024-01-10")] } ]

/-- `SemanticRetriever._calculate_relevance`: `|query_words ∩ content_words|
divided by |query_words|`, zero when the query has no words. -/
def calculateRelevance (query content : String) : ℚ :=
  let qw := (pyWords (lowerStr query)).dedup
  let cw := (pyWords (lowerStr content)).dedup
  if qw = [] then 0
  else ((qw.filter (fun w => w ∈ cw)).length : ℚ) / (qw.length : ℚ)

/-- `SemanticRetriever.retrieve` on the fallback (no-vector-store) path:
score the mock documents, keep positive scores, stable-sort descending,
truncate to `top_k`.  The candidate list has at most two elements, so the
stable descending sort is the single conditional swap below. -/
def SemanticRetriever.retrieve (query : String) (top_k : ℕ) : RetrievalResult :=
  let pairs := mockDocuments.filterMap
    (fun d =>
      let s := calculateRelevance query d.content
      if 0 < s then some (d, s) else none)
  let sortedPairs :=
    match pairs with
    | [a, b] => if a.2 < b.2 then [b, a] else [a, b]
    | l => l
  let chosen := sortedPairs.take top_k
  { documents := chosen.map (·.1), scores := chosen.map (·.2),
    query := query, refined_query := query }

/-- `ResponseGenerator.generate` (mock path): quote the top document, or the
fixed could-not-find message.  The `query` and conversation-context
parameters only feed the unused LLM prompt in the source. -/
def ResponseGenerator.generate (query : String) (retrieved_docs : List Document)
    (conversation_context : Option RagContext) : String :=
  match retrieved_docs with
  | d :: _ => "Based on our documentation: " ++ d.content
  | [] => "I couldn't find specific information about that. Would you like me to connect you with a human agent?"

/-- `_check_no_hallucination`: with sources present, fail when the word
overlap ratio of response against concatenated sources is below 0.3.
(The Python code divides by the response word count; on a response with no
words it would raise, while this model yields ratio 0 and fails the check.) -/
def checkNoHallucination (response : String) (source_docs : List Document) : Option String :=
  match source_docs with
  | [] => none
  | _ =>
      let source_content := String.intercalate " " (source_docs.map (·.content))
      let rw := (pyWords (lowerStr response)).dedup
      let sw := (pyWords (lowerStr source_content)).dedup
      let overlap_ratio := ((rw.filter (fun w => w ∈ sw)).length : ℚ) / (rw.length : ℚ)
      if overlap_ratio < 3/10 then some "Response contains information not found in sources"
      else none

/-- The fixed sensitive-token list of `_check_no_sensitive_info`. -/
def sensitivePatterns : List String :=
  ["password", "api_key", "secret", "token", "credit_card", "ssn", "social_security"]

/-- `_check_no_sensitive_info`. -/
def checkNoSensitiveInfo (response : String) : Option String :=
  match sensitivePatterns.find? (fun p => strContainsSub (lowerStr response) p) with
  | some p => some ("Response contains sensitive information: " ++ p)
  | none => none

/-- The fixed uncertainty-phrase list of `_check_appropriate_confidence`. -/
def uncertaintyPhrases : List String :=
  [ "i don't have enough information"
  , "i couldn't find"
  , "would you like me to connect you with"
  , "i'm not sure" ]

/-- `_check_appropriate_confidence`: a confident answer (no uncertainty
phrase) must be backed by at least one source document. -/
def checkAppropriateConfidence (response : String) (source_docs : List Document) : Option String :=
  let has_uncertainty := uncertaintyPhrases.any (fun p => strContainsSub (lowerStr response) p)
  let has_sources := 0 < source_docs.length
  if ¬ has_sources ∧ ¬ has_uncertainty then
    some "Response is too confident without supporting sources"
  else none

/-- The fixed harmful-term list of `_check_no_harmful_content`. -/
def harmfulPatterns : List String :=
  ["hack", "exploit", "vulnerability", "breach", "ddos", "injection", "malware"]

/-- The defensive-context terms of `_check_no_harmful_content`. -/
def defensiveTerms : List String := ["protect", "prevent", "secure", "defend"]

/-- `_check_no_harmful_content`: a harmful term fails the check unless a
defensive-context term also occurs. -/
def checkNoHarmfulContent (response : String) : Option String :=
  let rl := lowerStr response
  let defensive_context := defensiveTerms.any (fun t => strContainsSub rl t)
  match harmfulPatterns.find? (fun p => strContainsSub rl p) with
  | some p =>
      if defensive_context then none
      else some ("Response contains potentially harmful content: " ++ p)
  | none => none

/-- The `safety_checks` list of `ResponseValidator`, in source order, each
returning `none` on pass and the failure reason on fail. -/
def safetyChecks : List (String × (String → List Document → String → Option String)) :=
  [ ("_check_no_hallucination", fun r docs _ => checkNoHallucination r docs)
  , ("_check_no_sensitive_info", fun r _ _ => checkNoSensitiveInfo r)
  , ("_check_appropriate_confidence", fun r docs _ => checkAppropriateConfidence r docs)
  , ("_check_no_harmful_content", fun r _ _ => checkNoHarmfulContent r) ]

/-- `ResponseValidator.validate`: run the four checks, collect passed and
failed names, aggregate validity and the passed-fraction confidence. -/
def ResponseValidator.validate (response : String) (source_docs : List Document)
    (query : String) : Bool × ValidationResults :=
  let results := safetyChecks.map (fun c => (c.1, c.2 response source_docs query))
  let passed := (results.filter (fun r => r.2 = none)).map (·.1)
  let failed := results.filterMap (fun r => r.2.map (fun reason => (r.1, reason)))
  let is_valid := failed.length = 0
  (is_valid,
   { checks_passed := passed, checks_failed := failed,
     confidence := (passed.length : ℚ) / (safetyChecks.length : ℚ) })

/-- The fixed safe fallback response of `EnhancedRAG.process`. -/
def safeFallbackResponse : String :=
  "I apologize, but I don't have enough verified information to answer that question accurately. Would you like me to connect you with a human agent who can help?"

/-- `EnhancedRAG.process`: refine, retrieve, generate, and (in safety mode)
validate, replacing the response wholesale when validation fails. -/
def EnhancedRAG.process (query : String) (context : RagContext)
    (safety_mode : Bool := true) : GenerationResult :=
  let refined_query := QueryRefiner.refine_query query context
  let retrieval_result := SemanticRetriever.retrieve refined_query 5
  let response := ResponseGenerator.generate refined_query retrieval_result.documents (some context)
  let v := if safety_mode then
      some (ResponseValidator.validate response retrieval_result.documents query)
    else none
  let validation_passed := match v with | some bv => bv.1 | none => true
  let vmeta := v.map (·.2)
  let final_response := if validation_passed then response else safeFallbackResponse
  { response := final_response
  , confidence := match vmeta with | some m => m.confidence | none => 1
  , sources := retrieval_result.documents.map (·.id)
  , validation_passed := validation_passed
  , metadata :=
      { refined_query := refined_query
      , retrieval_scores := retrieval_result.scores
      , validation_details := vmeta
      , document_count := retrieval_result.documents.length } }

/-! ## Chat HTTP router (src/api/routers/chat.py) -/

/-- The request model `ChatMessage` (the metadata map is forwarded as NLU
context and never read by the rule-based pipeline). -/
structure ChatMessage where
  message : String
  session_id : Option String := none
  user_id : Option String := none
  metadata : List (String × String) := []
deriving DecidableEq, Repr

/-- The metadata bag of a `ChatResponse` (two shapes occur in the source). -/
inductive ChatMetadata where
  | handoffReason (reason : String)
  | turnInfo (turn_count : ℕ) (validation_passed : Bool)
deriving DecidableEq, Repr

/-- The response model `ChatResponse`. -/
structure ChatResponse where
  response : String
  session_id : String
  intent : Option String
  confidence : ℚ
  requires_human : Bool
  sources : Option (List String)
  metadata : ChatMetadata
deriving DecidableEq, Repr

/-- Outcome of a chat-router endpoint: a JSON body or an HTTP error. -/
inductive ChatOutcome where
  | ok (resp : ChatResponse)
  | httpError (status : ℕ) (detail : String)
deriving DecidableEq, Repr

/-- `rag_module` as initialized in src/api/routers/chat.py line 21: `None`
(the RAG orchestrator import is commented out pending vector-store setup). -/
def chatRagModule : Option (String → RagContext → GenerationResult) := none

/-- `POST /message` (`send_message`): run NLU, short-circuit to the fixed
hand-off reply when the dialogue manager escalates, otherwise call
`rag_module.process`.  `rag` is the router's `rag_module`; when it is `none`
the attribute access raises and the blanket `except` turns it into a 500.
`fresh_id` stands for the `uuid4` generated when no session id is given;
the unawaited `save_conversation` background task only logs and is omitted. -/
def send_message (sessions : List (String × DialogueState))
    (rag : Option (String → RagContext → GenerationResult))
    (fresh_id : String) (msg : ChatMessage) :
    List (String × DialogueState) × ChatOutcome :=
  let session_id := msg.session_id.getD fresh_id
  let (s1, nlu) := NLPEngine.process_message sessions msg.message session_id msg.user_id
  match lookupKey session_id s1 with
  | none => (s1, ChatOutcome.httpError 500 "Failed to process message")
  | some dialogue_state =>
      if DialogueManager.should_handoff dialogue_state then
        (s1, ChatOutcome.ok
          { response := "I'll connect you with a human agent who can better assist you. Please wait a moment."
          , session_id := session_id
          , intent := some (intentValue nlu.intent)
          , confidence := nlu.intent_confidence
          , requires_human := true
          , sources := none
          , metadata := ChatMetadata.handoffReason "escalation_required" })
      else
        match rag with
        | none => (s1, ChatOutcome.httpError 500 "Failed to process message")
        | some ragProcess =>
            let generation_result := ragProcess msg.message
              { intent := some (intentValue nlu.intent)
              , entities := nlu.entities.foldl (fun m e => setKey e.type e.value m) []
              , session_id := some session_id
              , turn_count := some dialogue_state.turn_count
              , previous_intent := none }
            (s1, ChatOutcome.ok
              { response := generation_result.response
              , session_id := session_id
              , intent := some (intentValue nlu.intent)
              , confidence := generation_result.confidence
              , requires_human := false
              , sources := some generation_result.sources
              , metadata := ChatMetadata.turnInfo dialogue_state.turn_count
                  generation_result.validation_passed })

/-- Outcome of the handoff endpoint. -/
inductive HandoffOutcome where
  | ok (status : String) (session_id : String) (message : String)
  | httpError (status_code : ℕ) (detail : String)
deriving DecidableEq, Repr

/-- The `try:` body of `POST /session/{id}/handoff`
(`request_human_handoff`): 404 when the session has no dialogue state, else
set `handoff_requested` and return the success body. -/
def request_human_handoff_body (sessions : List (String × DialogueState))
    (session_id : String) : List (String × DialogueState) × HandoffOutcome :=
  match lookupKey session_id sessions with
  | none => (sessions, HandoffOutcome.httpError 404 "Session not found")
  | some st =>
      (setKey session_id { st with handoff_requested := true } sessions,
        HandoffOutcome.ok "handoff_initiated" session_id
          "Your conversation is being transferred to a human agent.")

/-- The whole endpoint: the surrounding `except Exception` catches every
raised exception — including the endpoint's own `HTTPException(404)` —
and re-raises a generic 500. -/
def request_human_handoff (sessions : List (String × DialogueState))
    (session_id : String) : List (String × DialogueState) × HandoffOutcome :=
  match request_human_handoff_body sessions session_id with
  | (_, HandoffOutcome.httpError _ _) =>
      (sessions, HandoffOutcome.httpError 500 "Failed to initiate handoff")
  | ok => ok

/-! ## In-memory cache and rate limiter (src/core/memory_cache.py) -/

/-- `CacheItem`: stored value, creation instant, optional TTL in seconds. -/
structure CacheItem (α : Type) where
  value : α
  created_at : ℤ
  ttl : Option ℕ
deriving DecidableEq, Repr

/-- `CacheItem.is_expired`: age strictly greater than the TTL. -/
def CacheItem.is_expired {α : Type} (item : CacheItem α) (now : ℤ) : Bool :=
  match item.ttl with
  | none => false
  | some t => decide ((t : ℤ) < now - item.created_at)

/-- `InMemoryCache`: insertion/recency-ordered map (head = oldest) plus the
capacity bound.  All operations run under one lock in the source, so a
sequential model is faithful. -/
structure InMemoryCache (α : Type) where
  cache : List (String × CacheItem α)
  max_size : ℕ
deriving DecidableEq, Repr

/-- Fresh cache as built by `InMemoryCache.__init__`. -/
def InMemoryCache.empty (α : Type) (max_size : ℕ) : InMemoryCache α :=
  { cache := [], max_size := max_size }

/-- `InMemoryCache.get`: hit moves the key to the most-recently-used end;
an expired hit deletes the entry and misses. -/
def InMemoryCache.get {α : Type} (c : InMemoryCache α) (key : String) (now : ℤ) :
    Option α × InMemoryCache α :=
  match lookupKey key c.cache with
  | none => (none, c)
  | some item =>
      if item.is_expired now then (none, { c with cache := eraseKey key c.cache })
      else (some item.value, { c with cache := eraseKey key c.cache ++ [(key, item)] })

/-- The `while len(self.cache) >= self.max_size: popitem(last=False)` loop
of `InMemoryCache.set` (pop the oldest entry until below capacity). -/
def evictWhile {α : Type} (max_size : ℕ) :
    List (String × CacheItem α) → List (String × CacheItem α)
  | [] => []
  | x :: rest => if max_size ≤ (x :: rest).length then evictWhile max_size rest else x :: rest

/-- `InMemoryCache.set`: evict to below capacity, then bind the key and move
it to the most-recently-used end. -/
def InMemoryCache.set {α : Type} (c : InMemoryCache α) (key : String) (value : α)
    (ttl : Option ℕ) (now : ℤ) : InMemoryCache α :=
  let evicted := evictWhile c.max_size c.cache
  { c with cache := eraseKey key evicted ++ [(key, { value := value, created_at := now, ttl := ttl })] }

/-- `InMemoryCache.delete`. -/
def InMemoryCache.delete {α : Type} (c : InMemoryCache α) (key : String) :
    Bool × InMemoryCache α :=
  match lookupKey key c.cache with
  | some _ => (true, { c with cache := eraseKey key c.cache })
  | none => (false, c)

/-- `InMemoryCache.exists`: like `get` but only reports presence (also
deletes an expired entry). -/
def InMemoryCache.existsKey {α : Type} (c : InMemoryCache α) (key : String) (now : ℤ) :
    Bool × InMemoryCache α :=
  match lookupKey key c.cache with
  | none => (false, c)
  | some item =>
      if item.is_expired now then (false, { c with cache := eraseKey key c.cache })
      else (true, c)

/-- `InMemoryCache.clear`. -/
def InMemoryCache.clear {α : Type} (c : InMemoryCache α) : InMemoryCache α :=
  { c with cache := [] }

/-- One pass of the background `_cleanup_expired` sweep. -/
def InMemoryCache.sweep {α : Type} (c : InMemoryCache α) (now : ℤ) : InMemoryCache α :=
  { c with cache := c.cache.filter (fun e => e.2.is_expired now = false) }

/-- One cache operation, for stating whole-history invariants. -/
inductive CacheOp (α : Type) where
  | get (key : String) (now : ℤ)
  | set (key : String) (value : α) (ttl : Option ℕ) (now : ℤ)
  | delete (key : String)
  | existsKey (key : String) (now : ℤ)
  | clear
  | sweep (now : ℤ)

/-- Apply one operation (dropping the returned value). -/
def InMemoryCache.runOp {α : Type} (c : InMemoryCache α) : CacheOp α → InMemoryCache α
  | CacheOp.get key now => (c.get key now).2
  | CacheOp.set key value ttl now => c.set key value ttl now
  | CacheOp.delete key => (c.delete key).2
  | CacheOp.existsKey key now => (c.existsKey key now).2
  | CacheOp.clear => c.clear
  | CacheOp.sweep now => c.sweep now

/-- Apply a whole history of operations. -/
def InMemoryCache.runOps {α : Type} (c : InMemoryCache α) (ops : List (CacheOp α)) :
    InMemoryCache α :=
  ops.foldl InMemoryCache.runOp c

/-- The composite cache key of `RateLimiter`. -/
def rateLimitKey (identifier : String) (window_seconds : ℕ) : String :=
  "rate_limit:" ++ identifier ++ ":" ++ toString window_seconds

/-- `RateLimiter.is_allowed`: counter=1 on a fresh window, deny at or above
`max_requests`, otherwise increment; every stored counter carries
`ttl=window_seconds` and a fresh creation instant. -/
def RateLimiter.is_allowed (c : InMemoryCache ℕ) (identifier : String)
    (max_requests window_seconds : ℕ) (now : ℤ) : Bool × InMemoryCache ℕ :=
  let key := rateLimitKey identifier window_seconds
  match c.get key now with
  | (none, c1) => (true, c1.set key 1 (some window_seconds) now)
  | (some current, c1) =>
      if max_requests ≤ current then (false, c1)
      else (true, c1.set key (current + 1) (some window_seconds) now)

/-- `RateLimiter.get_remaining`: `max(0, max_requests - current)`, or the
full budget when no counter exists. -/
def RateLimiter.get_remaining (c : InMemoryCache ℕ) (identifier : String)
    (max_requests window_seconds : ℕ) (now : ℤ) : ℤ × InMemoryCache ℕ :=
  let key := rateLimitKey identifier window_seconds
  match c.get key now with
  | (none, c1) => ((max_requests : ℤ), c1)
  | (some current, c1) => (max 0 ((max_requests : ℤ) - (current : ℤ)), c1)

/-! ## WebSocket connection manager (src/api/websocket.py) -/

/-- An entry of the agent waiting queue.  `request_human_handoff` enqueues a
dict with keys `session_id`, `reason`, `requested_at`; `disconnect_agent`
enqueues the bare session-id string. -/
inductive QueueEntry where
  | handoffRequest (session_id : String) (reason : String) (requested_at : String)
  | bareSession (session : String)
deriving DecidableEq, Repr

/-- `customer_data["session_id"]`: defined on a dict entry; subscripting the
bare string raises `TypeError`, modelled as `none`. -/
def QueueEntry.sessionIdField : QueueEntry → Option String
  | QueueEntry.handoffRequest sid _ _ => some sid
  | QueueEntry.bareSession _ => none

/-- `ConnectionManager` state (socket handles abstracted to the keys). -/
structure ConnectionManager where
  active_connections : List String
  agent_connections : List String
  session_agent_map : List (String × String)
  waiting_queue : List QueueEntry
deriving DecidableEq, Repr

/-- `ConnectionManager.disconnect_agent`: deregister the agent, drop all of
its session assignments, and re-enqueue each such session — as a bare
string — at the tail of the waiting queue. -/
def ConnectionManager.disconnect_agent (m : ConnectionManager) (agent_id : String) :
    ConnectionManager :=
  if agent_id ∈ m.agent_connections then
    let sessions_to_reassign := (m.session_agent_map.filter (fun p => p.2 = agent_id)).map (·.1)
    { m with
        agent_connections := m.agent_connections.erase agent_id
      , session_agent_map := m.session_agent_map.filter (fun p => ¬ p.2 = agent_id)
      , waiting_queue := m.waiting_queue ++ sessions_to_reassign.map QueueEntry.bareSession }
  else m

/-- `ConnectionManager.request_human_handoff`: enqueue the structured dict
entry (notifications carry no manager-state change). -/
def ConnectionManager.request_human_handoff (m : ConnectionManager)
    (session_id reason requested_at : String) : ConnectionManager :=
  { m with waiting_queue :=
      m.waiting_queue ++ [QueueEntry.handoffRequest session_id reason requested_at] }

/-- The `accept_customer` action of the agent endpoint: pop the oldest queue
entry and assign it to this agent; `none` models the `TypeError` raised when
the dequeued entry is a bare string without a `"session_id"` key. -/
def ConnectionManager.accept_customer (m : ConnectionManager) (agent_id : String) :
    Option ConnectionManager :=
  match m.waiting_queue with
  | [] => some m
  | entry :: rest =>
      match entry.sessionIdField with
      | none => none
      | some sid =>
          some { m with
                   waiting_queue := rest
                 , session_agent_map := setKey sid agent_id m.session_agent_map }

/-! ## Knowledge-article storage (src/core/sqlite_db.py, src/core/postgres_db.py) -/

/-- A row of the `knowledge_articles` table (`id` is the primary key;
`metadata` is stored as serialized JSON, modelled as the pair list). -/
structure KnowledgeArticle where
  id : String
  title : String
  content : String
  category : String
  source : String
  metadata : List (String × String)
  created_at : ℤ
  updated_at : ℤ
deriving DecidableEq, Repr

/-- `SQLiteDatabase.add_knowledge_article`: `INSERT OR REPLACE` deletes any
row with this primary key and inserts a fresh row whose `created_at` and
`updated_at` take their `CURRENT_TIMESTAMP` defaults. -/
def SQLiteDatabase.add_knowledge_article (table : List KnowledgeArticle)
    (article_id title content category source : String)
    (metadata : List (String × String)) (now : ℤ) : List KnowledgeArticle :=
  (table.filter (fun r => ¬ r.id = article_id)) ++
    [{ id := article_id, title := title, content := content, category := category,
       source := source, metadata := metadata, created_at := now, updated_at := now }]

/-- `PostgresDatabase.add_knowledge_article`: `INSERT ... ON CONFLICT (id)
DO UPDATE` refreshes all fields and `updated_at` on an existing row, keeping
`created_at`; otherwise inserts. -/
def PostgresDatabase.add_knowledge_article (table : List KnowledgeArticle)
    (article_id title content category source : String)
    (metadata : List (String × String)) (now : ℤ) : List KnowledgeArticle :=
  if table.any (fun r => r.id = article_id) then
    table.map (fun r =>
      if r.id = article_id then
        { r with title := title, content := content, category := category,
                 source := source, metadata := metadata, updated_at := now }
      else r)
  else
    table ++ [{ id := article_id, title := title, content := content, category := category,
                source := source, metadata := metadata, created_at := now, updated_at := now }]

/-! ## Derived predicates used by the theorems -/

/-- The keys of an in-memory map are pairwise distinct (always true of a
Python dict; stated as the invariant the cache operations preserve). -/
def KeysNodup {α : Type} (l : List (String × α)) : Prop :=
  (l.map Prod.fst).Nodup

instance {α : Type} (l : List (String × α)) : Decidable (KeysNodup l) :=
  inferInstanceAs (Decidable ((l.map Prod.fst).Nodup))

/-! ### Lemmas about the intent recognizer -/

theorem countP_le_length {α : Type} (p : α → Bool) (l : List α) :
    l.countP p ≤ l.length := List.countP_le_length p

theorem fracOf_nonneg (n m : ℕ) : (0 : ℚ) ≤ (n : ℚ) / (m : ℚ) :=
  div_nonneg (Nat.cast_nonneg n) (Nat.cast_nonneg m)

/-- Every score kept by `buildScores` is strictly positive. -/
theorem buildScores_pos (tl : String) :
    ∀ (l : List (Intent × List String)) (x : Intent × ℚ),
      x ∈ buildScores tl l → 0 < x.2 := by
  intro l
  induction l with
  | nil => intro x hx; simp [buildScores] at hx
  | cons hd tlist ih =>
      intro x hx
      obtain ⟨i, ps⟩ := hd
      simp only [buildScores] at hx
      by_cases hn : 0 < ps.countP (fun p => strContainsSub tl p)
      · rw [if_pos hn] at hx
        rcases List.mem_cons.mp hx with h | h
        · subst h
          have hlen : 0 < ps.length := lt_of_lt_of_le hn (countP_le_length _ _)
          exact div_pos (by exact_mod_cast hn) (by exact_mod_cast hlen)
        · exact ih x h
      · rw [if_neg hn] at hx
        exact ih x hx

/-- `buildScores` + `pickMax` equals the direct best-so-far scan `pickBest`. -/
theorem pickMax_buildScores (tl : String) :
    ∀ (l : List (Intent × List String)) (best : Intent × ℚ), 0 ≤ best.2 →
      pickMax best (buildScores tl l) = pickBest tl l best := by
  intro l
  induction l with
  | nil => intro best _; rfl
  | cons hd rest ih =>
      intro best hb
      obtain ⟨i, ps⟩ := hd
      simp only [buildScores, pickBest]
      by_cases hn : 0 < ps.countP (fun p => strContainsSub tl p)
      · rw [if_pos hn]
        simp only [pickMax]
        apply ih
        by_cases hrep : best.2 < (ps.countP (fun p => strContainsSub tl p) : ℚ) / (ps.length : ℚ)
        · rw [if_pos hrep]; exact le_of_lt (lt_of_le_of_lt hb hrep)
        · rw [if_neg hrep]; exact hb
      · rw [if_neg hn]
        have hz : (ps.countP (fun p => strContainsSub tl p) : ℚ) / (ps.length : ℚ) = 0 := by
          have : ps.countP (fun p => strContainsSub tl p) = 0 := Nat.eq_zero_of_not_pos hn
          rw [this]; simp
        rw [hz]
        have : ¬ best.2 < (0 : ℚ) := not_lt.mpr hb
        rw [if_neg this]
        exact ih best hb

/-- Specification of the best-so-far scan: either nothing beat the initial
best (and every table entry scores at most it), or the result is the first
table entry attaining the (strictly beating) maximum. -/
theorem pickBest_spec (tl : String) :
    ∀ (l : List (Intent × List String)) (best : Intent × ℚ),
      (pickBest tl l best = best ∧
        ∀ p ∈ l, ((p.2.countP (fun q => strContainsSub tl q) : ℚ) / (p.2.length : ℚ)) ≤ best.2) ∨
      (∃ l₁ p l₂, l = l₁ ++ p :: l₂ ∧
        pickBest tl l best = (p.1, (p.2.countP (fun q => strContainsSub tl q) : ℚ) / (p.2.length : ℚ)) ∧
        best.2 < (p.2.countP (fun q => strContainsSub tl q) : ℚ) / (p.2.length : ℚ) ∧
        (∀ q ∈ l₁, ((q.2.countP (fun r => strContainsSub tl r) : ℚ) / (q.2.length : ℚ)) <
          (p.2.countP (fun q => strContainsSub tl q) : ℚ) / (p.2.length : ℚ)) ∧
        (∀ q ∈ l, ((q.2.countP (fun r => strContainsSub tl r) : ℚ) / (q.2.length : ℚ)) ≤
          (p.2.countP (fun q => strContainsSub tl q) : ℚ) / (p.2.length : ℚ))) := by
  intro l
  induction l with
  | nil => intro best; left; exact ⟨rfl, by simp⟩
  | cons hd rest ih =>
      intro best
      obtain ⟨i, ps⟩ := hd
      set s := ((ps.countP (fun p => strContainsSub tl p) : ℚ)) / (ps.length : ℚ) with hs
      by_cases hrep : best.2 < s
      · -- the head strictly beats the running best and becomes the new best
        rcases ih (i, s) with ⟨heq, hall⟩ | ⟨l₁, p, l₂, hsplit, heq, hlt, hpre, hglob⟩
        · right
          refine ⟨[], (i, ps), rest, by simp, ?_, ?_, by simp, ?_⟩
          · simp only [pickBest, ← hs, if_pos hrep]; exact heq
          · exact hrep
          · intro q hq
            rcases List.mem_cons.mp hq with h | h
            · subst h; exact le_refl _
            · exact hall q h
        · right
          refine ⟨(i, ps) :: l₁, p, l₂, by simp [hsplit], ?_, ?_, ?_, ?_⟩
          · simp only [pickBest, ← hs, if_pos hrep]; exact heq
          · exact lt_trans hrep hlt
          · intro q hq
            rcases List.mem_cons.mp hq with h | h
            · subst h; exact hlt
            · exact hpre q h
          · intro q hq
            rcases List.mem_cons.mp hq with h | h
            · subst h; exact le_of_lt hlt
            · exact hglob q h
      · -- the head does not beat the running best
        rcases ih best with ⟨heq, hall⟩ | ⟨l₁, p, l₂, hsplit, heq, hlt, hpre, hglob⟩
        · left
          constructor
          · simp only [pickBest, ← hs, if_neg hrep]; exact heq
          · intro q hq
            rcases List.mem_cons.mp hq with h | h
            · subst h; exact not_lt.mp hrep
            · exact hall q h
        · right
          refine ⟨(i, ps) :: l₁, p, l₂, by simp [hsplit], ?_, hlt, ?_, ?_⟩
          · simp only [pickBest, ← hs, if_neg hrep]; exact heq
          · intro q hq
            rcases List.mem_cons.mp hq with h | h
            · subst h; exact lt_of_le_of_lt (not_lt.mp hrep) hlt
            · exact hpre q h
          · intro q hq
            rcases List.mem_cons.mp hq with h | h
            · subst h; exact le_of_lt (lt_of_le_of_lt (not_lt.mp hrep) hlt)
            · exact hglob q h

/-- The recognizer equals the best-so-far scan started at `(unknown, 0)`. -/
theorem process_def (text : String) :
    IntentRecognizer.process text =
      (match buildScores (lowerStr text) intentPatterns with
        | [] => (Intent.unknown, 0)
        | x :: xs => pickMax x xs) := rfl

theorem process_eq_pickBest (text : String) :
    IntentRecognizer.process text =
      pickBest (lowerStr text) intentPatterns (Intent.unknown, 0) := by
  rw [← pickMax_buildScores (lowerStr text) intentPatterns (Intent.unknown, 0) (le_refl 0)]
  rw [process_def]
  rcases hb : buildScores (lowerStr text) intentPatterns with _ | ⟨x, xs⟩
  · rfl
  · have hx : 0 < x.2 := buildScores_pos (lowerStr text) intentPatterns x
      (by rw [hb]; exact List.mem_cons_self x xs)
    simp only [pickMax]
    rw [if_pos (by simpa using hx)]

/-- C3: for every input text the recognizer returns the intent with the
highest non-zero keyword fraction (first-encountered maximum in table
order) and that fraction as confidence, or `unknown` with confidence 0
when no keyword of any intent matches. -/
theorem intentRecognizer_first_argmax (text : String) :
    (IntentRecognizer.process text = (Intent.unknown, 0) ∧
      ∀ p ∈ intentPatterns, intentFraction text p.2 = 0) ∨
    (∃ l₁ p l₂, intentPatterns = l₁ ++ p :: l₂ ∧
      IntentRecognizer.process text = (p.1, intentFraction text p.2) ∧
      0 < intentFraction text p.2 ∧
      (∀ q ∈ l₁, intentFraction text q.2 < intentFraction text p.2) ∧
      (∀ q ∈ intentPatterns, intentFraction text q.2 ≤ intentFraction text p.2)) := by
  have hk : ∀ ps : List String,
      intentFraction text ps =
        ((ps.countP (fun q => strContainsSub (lowerStr text) q) : ℚ) / (ps.length : ℚ)) := by
    intro ps; rfl
  rcases pickBest_spec (lowerStr text) intentPatterns (Intent.unknown, 0) with
    ⟨heq, hall⟩ | ⟨l₁, p, l₂, hsplit, heq, hlt, hpre, hglob⟩
  · left
    constructor
    · rw [process_eq_pickBest]; exact heq
    · intro q hq
      have h1 := hall q hq
      have h2 : (0 : ℚ) ≤ intentFraction text q.2 := by
        rw [hk]; exact fracOf_nonneg _ _
      rw [hk] at h2 ⊢
      exact le_antisymm h1 h2
  · right
    refine ⟨l₁, p, l₂, hsplit, ?_, ?_, ?_, ?_⟩
    · rw [process_eq_pickBest, hk]; exact heq
    · rw [hk]; exact hlt
    · intro q hq; rw [hk, hk]; exact hpre q hq
    · intro q hq; rw [hk, hk]; exact hglob q hq

/-- C5: `should_handoff` is true exactly for the four escalation conditions. -/
theorem should_handoff_iff (s : DialogueState) :
    DialogueManager.should_handoff s = true ↔
      (s.handoff_requested = true ∨ s.current_intent = some Intent.human_handoff ∨
        10 < s.turn_count ∨ (s.current_intent = some Intent.unknown ∧ 2 < s.turn_count)) := by
  unfold DialogueManager.should_handoff
  split_ifs with h1 h2 h3
  · simp only [true_iff]
    rcases h1 with h | h
    · exact Or.inl h
    · exact Or.inr (Or.inl h)
  · simp only [true_iff]
    exact Or.inr (Or.inr (Or.inl h2))
  · simp only [true_iff]
    exact Or.inr (Or.inr (Or.inr h3))
  · simp only [Bool.false_eq_true, false_iff]
    push_neg at h1 ⊢
    refine ⟨h1.1, h1.2, not_lt.mp h2, ?_⟩
    intro hu
    by_contra hgt
    exact h3 ⟨hu, not_le.mp (fun hle => hgt (by omega))⟩


/-! ### C2: the handoff endpoint and its blanket exception handler -/

/-- C2: the claim says a handoff request for an unknown session id answers
404.  The endpoint body does raise the 404, but the surrounding
`except Exception` catches that very `HTTPException` and re-raises a generic
500, so the endpoint answers 500 "Failed to initiate handoff" instead.  For
an existing session the flag is set and the success body returned. -/
theorem handoff_missing_session_answers_500 :
    request_human_handoff_body [] "missing" =
      ([], HandoffOutcome.httpError 404 "Session not found") ∧
    request_human_handoff [] "missing" =
      ([], HandoffOutcome.httpError 500 "Failed to initiate handoff") ∧
    request_human_handoff [("s1", { session_id := "s1" })] "s1" =
      ([("s1", { session_id := "s1", handoff_requested := true })],
        HandoffOutcome.ok "handoff_initiated" "s1"
          "Your conversation is being transferred to a human agent.") :=
  ⟨rfl, rfl, rfl⟩

/-! ### C10: heterogeneous waiting-queue entries -/

/-- C10: the claim says every dequeued waiting-queue entry is a record with
a `session_id` key.  `disconnect_agent` re-enqueues the bare session string,
which has no such key, so the very next `accept_customer` subscripts a
string and crashes (`none`); an entry enqueued by `request_human_handoff`
dequeues fine. -/
theorem disconnect_agent_enqueues_bare_session :
    let cm0 : ConnectionManager :=
      { active_connections := ["s1"], agent_connections := ["A", "B"],
        session_agent_map := [("s1", "A")], waiting_queue := [] }
    (cm0.disconnect_agent "A").waiting_queue = [QueueEntry.bareSession "s1"] ∧
    (QueueEntry.bareSession "s1").sessionIdField = none ∧
    (cm0.disconnect_agent "A").accept_customer "B" = none ∧
    (cm0.request_human_handoff "s2" "Customer request" "ts").accept_customer "B" =
      some { active_connections := ["s1"], agent_connections := ["A", "B"],
             session_agent_map := [("s1", "A"), ("s2", "B")], waiting_queue := [] } := by
  refine ⟨by decide, rfl, by decide, by decide⟩

/-! ### C8: knowledge-article upsert -/

theorem filter_eq_filter_ne_nil (l : List KnowledgeArticle) (aid : String) :
    (l.filter (fun r => ¬ r.id = aid)).filter (fun r => r.id = aid) = [] := by
  induction l with
  | nil => rfl
  | cons a rest ih =>
      by_cases h : a.id = aid <;> simp [List.filter, h, ih]

theorem filter_ne_idem (l : List KnowledgeArticle) (aid : String) :
    (l.filter (fun r => ¬ r.id = aid)).filter (fun r => ¬ r.id = aid) =
      l.filter (fun r => ¬ r.id = aid) := by
  induction l with
  | nil => rfl
  | cons a rest ih =>
      by_cases h : a.id = aid <;> simp [List.filter, h, ih]

theorem pg_filter_singleton (table : List KnowledgeArticle) (aid : String)
    (hnd : (table.map (fun r => r.id)).Nodup)
    (hmem : table.any (fun r => r.id = aid) = true) :
    ∃ r0, table.filter (fun r => r.id = aid) = [r0] ∧ r0.id = aid := by
  induction table with
  | nil => simp at hmem
  | cons a rest ih =>
      simp only [List.map_cons, List.nodup_cons] at hnd
      by_cases h : a.id = aid
      · refine ⟨a, ?_, h⟩
        have hrest : rest.filter (fun r => r.id = aid) = [] := by
          apply List.filter_eq_nil_iff.mpr
          intro r hr hralt
          have hrid : r.id = aid := by simpa using hralt
          exact hnd.1 (List.mem_map.mpr ⟨r, hr, by rw [hrid, h]⟩)
        simp [List.filter, h, hrest]
      · have hmem' : rest.any (fun r => r.id = aid) = true := by
          simp only [List.any_cons, Bool.or_eq_true, decide_eq_true_eq] at hmem
          rcases hmem with hc | hc
          · exact absurd hc h
          · simpa using hc
        obtain ⟨r0, hr0, hid⟩ := ih hnd.2 hmem'
        exact ⟨r0, by simp [List.filter, h, hr0], hid⟩

theorem pg_add_id_map (table : List KnowledgeArticle)
    (aid t c g s : String) (m : List (String × String)) (now : ℤ) :
    (PostgresDatabase.add_knowledge_article table aid t c g s m now).map (fun r => r.id) =
      if table.any (fun r => r.id = aid) then table.map (fun r => r.id)
      else table.map (fun r => r.id) ++ [aid] := by
  unfold PostgresDatabase.add_knowledge_article
  by_cases h : table.any (fun r => r.id = aid) = true
  · rw [if_pos h, if_pos h, List.map_map]
    apply List.map_congr_left
    intro r _
    by_cases hr : r.id = aid <;> simp [hr]
  · rw [if_neg h, if_neg h]
    simp

theorem pg_add_any (table : List KnowledgeArticle)
    (aid t c g s : String) (m : List (String × String)) (now : ℤ) :
    (PostgresDatabase.add_knowledge_article table aid t c g s m now).any
      (fun r => r.id = aid) = true := by
  unfold PostgresDatabase.add_knowledge_article
  by_cases h : table.any (fun r => r.id = aid) = true
  · rw [if_pos h]
    rw [List.any_eq_true] at h ⊢
    obtain ⟨r, hr, hid⟩ := h
    refine ⟨if r.id = aid then
        { r with title := t, content := c, category := g, source := s,
                 metadata := m, updated_at := now } else r,
      List.mem_map.mpr ⟨r, hr, rfl⟩, ?_⟩
    simp only [decide_eq_true_eq] at hid
    simp [hid]
  · rw [if_neg h]
    simp

theorem pg_add_nodup (table : List KnowledgeArticle)
    (aid t c g s : String) (m : List (String × String)) (now : ℤ)
    (hnd : (table.map (fun r => r.id)).Nodup) :
    ((PostgresDatabase.add_knowledge_article table aid t c g s m now).map
      (fun r => r.id)).Nodup := by
  rw [pg_add_id_map]
  by_cases h : table.any (fun r => r.id = aid) = true
  · rw [if_pos h]; exact hnd
  · rw [if_neg h]
    apply List.Nodup.append hnd (List.nodup_singleton aid)
    intro x hx hx'
    rw [List.mem_singleton] at hx'
    subst hx'
    obtain ⟨r, hr, hid⟩ := List.mem_map.mp hx
    exact h (List.any_eq_true.mpr ⟨r, hr, by simp [hid]⟩)

theorem pg_add_filter (table : List KnowledgeArticle)
    (aid t c g s : String) (m : List (String × String)) (now : ℤ)
    (hnd : (table.map (fun r => r.id)).Nodup) :
    ∃ created,
      (PostgresDatabase.add_knowledge_article table aid t c g s m now).filter
        (fun r => r.id = aid) =
      [{ id := aid, title := t, content := c, category := g, source := s,
         metadata := m, created_at := created, updated_at := now }] := by
  unfold PostgresDatabase.add_knowledge_article
  by_cases h : table.any (fun r => r.id = aid) = true
  · rw [if_pos h]
    obtain ⟨r0, hfil, hid⟩ := pg_filter_singleton table aid hnd h
    refine ⟨r0.created_at, ?_⟩
    have hcomm : ∀ (l : List KnowledgeArticle),
        (l.map (fun r => if r.id = aid then
            { r with title := t, content := c, category := g, source := s,
                     metadata := m, updated_at := now } else r)).filter
          (fun r => r.id = aid) =
        (l.filter (fun r => r.id = aid)).map (fun r => if r.id = aid then
            { r with title := t, content := c, category := g, source := s,
                     metadata := m, updated_at := now } else r) := by
      intro l
      induction l with
      | nil => rfl
      | cons a rest ih =>
          by_cases ha : a.id = aid <;> simp [List.filter, ha, ih]
    rw [hcomm, hfil]
    simp [hid]
  · rw [if_neg h]
    refine ⟨now, ?_⟩
    rw [List.filter_append]
    have hnil : table.filter (fun r => r.id = aid) = [] := by
      apply List.filter_eq_nil_iff.mpr
      intro r hr hralt
      exact h (List.any_eq_true.mpr ⟨r, hr, hralt⟩)
    rw [hnil]
    simp

/-- C8: adding a knowledge article twice under one id — on either storage
backend — leaves exactly one row under that id, carrying the second call's
title/content/category/source/metadata and a refreshed `updated_at`; the
second add is an upsert, never a uniqueness violation. -/
theorem add_knowledge_article_upsert
    (table : List KnowledgeArticle) (hnd : (table.map (fun r => r.id)).Nodup)
    (aid t1 c1 g1 s1 t2 c2 g2 s2 : String)
    (m1 m2 : List (String × String)) (now1 now2 : ℤ) :
    (let T2 := SQLiteDatabase.add_knowledge_article
        (SQLiteDatabase.add_knowledge_article table aid t1 c1 g1 s1 m1 now1)
        aid t2 c2 g2 s2 m2 now2
     T2.filter (fun r => r.id = aid) =
       [{ id := aid, title := t2, content := c2, category := g2, source := s2,
          metadata := m2, created_at := now2, updated_at := now2 }] ∧
     (T2.filter (fun r => r.id = aid)).length = 1) ∧
    (let T2 := PostgresDatabase.add_knowledge_article
        (PostgresDatabase.add_knowledge_article table aid t1 c1 g1 s1 m1 now1)
        aid t2 c2 g2 s2 m2 now2
     ∃ r, T2.filter (fun r => r.id = aid) = [r] ∧
        r.id = aid ∧ r.title = t2 ∧ r.content = c2 ∧ r.category = g2 ∧
        r.source = s2 ∧ r.metadata = m2 ∧ r.updated_at = now2) := by
  constructor
  · have hfil : (SQLiteDatabase.add_knowledge_article
        (SQLiteDatabase.add_knowledge_article table aid t1 c1 g1 s1 m1 now1)
        aid t2 c2 g2 s2 m2 now2).filter (fun r => r.id = aid) =
        [{ id := aid, title := t2, content := c2, category := g2, source := s2,
           metadata := m2, created_at := now2, updated_at := now2 }] := by
      unfold SQLiteDatabase.add_knowledge_article
      rw [List.filter_append, List.filter_append, filter_ne_idem]
      simp [filter_eq_filter_ne_nil, List.filter]
    exact ⟨hfil, by rw [hfil]; rfl⟩
  · obtain ⟨created, hfil⟩ := pg_add_filter
      (PostgresDatabase.add_knowledge_article table aid t1 c1 g1 s1 m1 now1)
      aid t2 c2 g2 s2 m2 now2 (pg_add_nodup table aid t1 c1 g1 s1 m1 now1 hnd)
    exact ⟨_, hfil, rfl, rfl, rfl, rfl, rfl, rfl, rfl⟩

/-- Witness for C8 at a concrete input (empty table, id "X"). -/
theorem add_knowledge_article_upsert_witness :
    (([] : List KnowledgeArticle).map (fun r => r.id)).Nodup ∧
    (SQLiteDatabase.add_knowledge_article
        (SQLiteDatabase.add_knowledge_article [] "X" "t1" "c1" "g1" "s1" [] 1)
        "X" "t2" "c2" "g2" "s2" [] 2).filter (fun r => r.id = "X") =
      [{ id := "X", title := "t2", content := "c2", category := "g2", source := "s2",
         metadata := [], created_at := 2, updated_at := 2 }] ∧
    (∃ r, (PostgresDatabase.add_knowledge_article
        (PostgresDatabase.add_knowledge_article [] "X" "t1" "c1" "g1" "s1" [] 1)
        "X" "t2" "c2" "g2" "s2" [] 2).filter (fun r => r.id = "X") = [r] ∧
        r.id = "X" ∧ r.title = "t2" ∧ r.content = "c2" ∧ r.category = "g2" ∧
        r.source = "s2" ∧ r.metadata = [] ∧ r.updated_at = 2) :=
  ⟨by simp,
    (add_knowledge_article_upsert [] (by simp) "X" "t1" "c1" "g1" "s1"
      "t2" "c2" "g2" "s2" [] [] 1 2).1.1,
    (add_knowledge_article_upsert [] (by simp) "X" "t1" "c1" "g1" "s1"
      "t2" "c2" "g2" "s2" [] [] 1 2).2⟩

/-! ### Association-list and eviction lemmas for the in-memory cache -/

theorem lookupKey_eq_none_iff {α : Type} (k : String) (l : List (String × α)) :
    lookupKey k l = none ↔ k ∉ l.map Prod.fst := by
  induction l with
  | nil => simp [lookupKey]
  | cons a rest ih =>
      obtain ⟨k', v⟩ := a
      by_cases h : k' = k
      · subst h; simp [lookupKey]
      · simp only [lookupKey, if_neg h, List.map_cons, List.mem_cons, ih]
        constructor
        · rintro hnm (hk | hk)
          · exact h hk.symm
          · exact hnm hk
        · intro hnm hk
          exact hnm (Or.inr hk)

theorem lookupKey_append_some {α : Type} {k : String} {l1 : List (String × α)}
    {v : α} (l2 : List (String × α)) (h : lookupKey k l1 = some v) :
    lookupKey k (l1 ++ l2) = some v := by
  induction l1 with
  | nil => simp [lookupKey] at h
  | cons a rest ih =>
      obtain ⟨k', w⟩ := a
      by_cases hk : k' = k
      · simp only [lookupKey, if_pos hk] at h
        simp only [List.cons_append, lookupKey, if_pos hk]
        exact h
      · simp only [lookupKey, if_neg hk] at h
        simp only [List.cons_append, lookupKey, if_neg hk]
        exact ih h

theorem lookupKey_append_none {α : Type} {k : String} {l1 : List (String × α)}
    (l2 : List (String × α)) (h : lookupKey k l1 = none) :
    lookupKey k (l1 ++ l2) = lookupKey k l2 := by
  induction l1 with
  | nil => rfl
  | cons a rest ih =>
      obtain ⟨k', w⟩ := a
      by_cases hk : k' = k
      · simp [lookupKey, if_pos hk] at h
      · simp only [lookupKey, if_neg hk] at h
        simp only [List.cons_append, lookupKey, if_neg hk]
        exact ih h

theorem eraseKey_keys_subset {α : Type} (k : String) (l : List (String × α)) :
    ((eraseKey k l).map Prod.fst) ⊆ l.map Prod.fst := by
  induction l with
  | nil => simp [eraseKey]
  | cons a rest ih =>
      obtain ⟨k', v⟩ := a
      by_cases h : k' = k
      · simp only [eraseKey, if_pos h, List.map_cons]
        exact fun x hx => List.mem_cons_of_mem _ hx
      · simp only [eraseKey, if_neg h, List.map_cons]
        intro x hx
        rcases List.mem_cons.mp hx with hx | hx
        · exact List.mem_cons.mpr (Or.inl hx)
        · exact List.mem_cons_of_mem _ (ih hx)

theorem mem_keys_eraseKey {α : Type} {k' k : String} {l : List (String × α)}
    (hne : ¬ k' = k) (h : k' ∈ l.map Prod.fst) :
    k' ∈ (eraseKey k l).map Prod.fst := by
  induction l with
  | nil => simp at h
  | cons a rest ih =>
      obtain ⟨ka, v⟩ := a
      rcases List.mem_cons.mp h with hx | hx
  
      · have hka : ¬ ka = k := by
          intro hkk
          exact hne (by rw [hx]; exact hkk)
        simp only [eraseKey, if_neg hka, List.map_cons]
        exact List.mem_cons.mpr (Or.inl hx)
      · by_cases hak : ka = k
        · simp only [eraseKey, if_pos hak]
          exact hx
        · simp only [eraseKey, if_neg hak, List.map_cons]
          exact List.mem_cons_of_mem _ (ih hx)

theorem keysNodup_of_sublist {α : Type} {l1 l2 : List (String × α)}
    (hs : l1.Sublist l2) (h : KeysNodup l2) : KeysNodup l1 :=
  List.Nodup.sublist (hs.map Prod.fst) h

theorem eraseKey_nodup {α : Type} {k : String} {l : List (String × α)}
    (h : KeysNodup l) : KeysNodup (eraseKey k l) := by
  induction l with
  | nil => exact h
  | cons a rest ih =>
      obtain ⟨k', v⟩ := a
      unfold KeysNodup at h
      simp only [List.map_cons, List.nodup_cons] at h
      by_cases hk : k' = k
      · simp only [eraseKey, if_pos hk]
        exact h.2
      · simp only [eraseKey, if_neg hk]
        unfold KeysNodup
        simp only [List.map_cons, List.nodup_cons]
        exact ⟨fun hm => h.1 (eraseKey_keys_subset k rest hm), ih h.2⟩

theorem not_mem_keys_eraseKey_self {α : Type} {k : String} {l : List (String × α)}
    (h : KeysNodup l) : k ∉ (eraseKey k l).map Prod.fst := by
  induction l with
  | nil => simp [eraseKey]
  | cons a rest ih =>
      obtain ⟨k', v⟩ := a
      unfold KeysNodup at h
      simp only [List.map_cons, List.nodup_cons] at h
      by_cases hk : k' = k
      · simp only [eraseKey, if_pos hk]
        rw [← hk]
        exact h.1
      · simp only [eraseKey, if_neg hk, List.map_cons]
        intro hm
        rcases List.mem_cons.mp hm with hx | hx
        · exact hk hx.symm
        · exact ih h.2 hx

theorem eraseKey_length_le {α : Type} (k : String) (l : List (String × α)) :
    (eraseKey k l).length ≤ l.length := by
  induction l with
  | nil => simp [eraseKey]
  | cons a rest ih =>
      obtain ⟨k', v⟩ := a
      by_cases hk : k' = k
      · simp only [eraseKey, if_pos hk, List.length_cons]
        omega
      · simp only [eraseKey, if_neg hk, List.length_cons]
        omega

theorem eraseKey_length_of_lookup {α : Type} {k : String} {l : List (String × α)}
    {v : α} (h : lookupKey k l = some v) :
    l.length = (eraseKey k l).length + 1 := by
  induction l with
  | nil => simp [lookupKey] at h
  | cons a rest ih =>
      obtain ⟨k', w⟩ := a
      by_cases hk : k' = k
      · simp only [eraseKey, if_pos hk, List.length_cons]
      · simp only [lookupKey, if_neg hk] at h
        simp only [eraseKey, if_neg hk, List.length_cons, ih h]

theorem evictWhile_sublist {α : Type} (m : ℕ) (l : List (String × CacheItem α)) :
    (evictWhile m l).Sublist l := by
  induction l with
  | nil => exact List.Sublist.refl _
  | cons a rest ih =>
      unfold evictWhile
      by_cases h : m ≤ (a :: rest).length
      · rw [if_pos h]
        exact List.Sublist.cons a ih
      · rw [if_neg h]

theorem evictWhile_length_lt {α : Type} (m : ℕ) (l : List (String × CacheItem α))
    (hm : 1 ≤ m) : (evictWhile m l).length < m := by
  induction l with
  | nil => simpa [evictWhile] using hm
  | cons a rest ih =>
      unfold evictWhile
      by_cases h : m ≤ (a :: rest).length
      · rw [if_pos h]
        exact ih
      · rw [if_neg h]
        exact not_le.mp h

theorem evictWhile_eq_self {α : Type} (m : ℕ) (l : List (String × CacheItem α))
    (h : l.length < m) : evictWhile m l = l := by
  cases l with
  | nil => rfl
  | cons a rest =>
      unfold evictWhile
      rw [if_neg (not_le.mpr h)]

/-! ### Cache-operation lemmas -/

theorem set_cache_eq {α : Type} (c : InMemoryCache α) (k : String) (v : α)
    (ttl : Option ℕ) (now : ℤ) :
    (c.set k v ttl now).cache =
      eraseKey k (evictWhile c.max_size c.cache) ++
        [(k, { value := v, created_at := now, ttl := ttl })] := rfl

theorem set_max_size {α : Type} (c : InMemoryCache α) (k : String) (v : α)
    (ttl : Option ℕ) (now : ℤ) : (c.set k v ttl now).max_size = c.max_size := rfl

theorem set_lookup_self {α : Type} (c : InMemoryCache α) (k : String) (v : α)
    (ttl : Option ℕ) (now : ℤ) (h : KeysNodup c.cache) :
    lookupKey k (c.set k v ttl now).cache =
      some { value := v, created_at := now, ttl := ttl } := by
  rw [set_cache_eq]
  have hnd2 : KeysNodup (evictWhile c.max_size c.cache) :=
    keysNodup_of_sublist (evictWhile_sublist c.max_size c.cache) h
  have hnone : lookupKey k (eraseKey k (evictWhile c.max_size c.cache)) = none :=
    (lookupKey_eq_none_iff _ _).mpr (not_mem_keys_eraseKey_self hnd2)
  rw [lookupKey_append_none _ hnone]
  simp [lookupKey]

theorem set_nodup {α : Type} (c : InMemoryCache α) (k : String) (v : α)
    (ttl : Option ℕ) (now : ℤ) (h : KeysNodup c.cache) :
    KeysNodup (c.set k v ttl now).cache := by
  rw [set_cache_eq]
  have hnd2 : KeysNodup (evictWhile c.max_size c.cache) :=
    keysNodup_of_sublist (evictWhile_sublist c.max_size c.cache) h
  unfold KeysNodup
  rw [List.map_append]
  apply List.Nodup.append (eraseKey_nodup hnd2) (by simp)
  intro x hx hx'
  simp only [List.map_cons, List.map_nil, List.mem_singleton] at hx'
  subst hx'
  exact not_mem_keys_eraseKey_self hnd2 hx

theorem set_length_le {α : Type} (c : InMemoryCache α) (k : String) (v : α)
    (ttl : Option ℕ) (now : ℤ) (hm : 1 ≤ c.max_size) :
    (c.set k v ttl now).cache.length ≤ c.max_size := by
  rw [set_cache_eq, List.length_append]
  have h1 := eraseKey_length_le k (evictWhile c.max_size c.cache)
  have h2 := evictWhile_length_lt c.max_size c.cache hm
  simp only [List.length_cons, List.length_nil]
  omega

theorem get_spec {α : Type} (c : InMemoryCache α) (k : String) (now : ℤ)
    (v : α) (c' : InMemoryCache α) (h : c.get k now = (some v, c')) :
    ∃ item, lookupKey k c.cache = some item ∧ item.is_expired now = false ∧
      v = item.value ∧ c'.cache = eraseKey k c.cache ++ [(k, item)] ∧
      c'.max_size = c.max_size := by
  unfold InMemoryCache.get at h
  split at h
  next heq => simp at h
  next item heq =>
    split at h
    next hexp => simp at h
    next hexp =>
      have h1 : some item.value = some v := congrArg Prod.fst h
      have h2 := congrArg Prod.snd h
      simp only at h2
      refine ⟨item, heq, by simpa using hexp, (Option.some.inj h1).symm, ?_, ?_⟩
      · rw [← h2]
      · rw [← h2]

theorem get_max_size {α : Type} (c : InMemoryCache α) (k : String) (now : ℤ) :
    ((c.get k now).2).max_size = c.max_size := by
  unfold InMemoryCache.get
  split
  · rfl
  · split <;> rfl

theorem get_nodup {α : Type} (c : InMemoryCache α) (k : String) (now : ℤ)
    (h : KeysNodup c.cache) : KeysNodup ((c.get k now).2).cache := by
  unfold InMemoryCache.get
  split
  next heq => exact h
  next item heq =>
    split
    · exact eraseKey_nodup h
    · unfold KeysNodup
      simp only [List.map_append, List.map_cons, List.map_nil]
      apply List.Nodup.append (eraseKey_nodup h) (by simp)
      intro x hx hx'
      simp only [List.mem_singleton] at hx'
      subst hx'
      exact not_mem_keys_eraseKey_self h hx

theorem get_length_le {α : Type} (c : InMemoryCache α) (k : String) (now : ℤ) :
    ((c.get k now).2).cache.length ≤ c.cache.length := by
  unfold InMemoryCache.get
  split
  next heq => exact le_refl _
  next item heq =>
    split
    · exact eraseKey_length_le k c.cache
    · simp only [List.length_append, List.length_cons, List.length_nil]
      have := eraseKey_length_of_lookup heq
      omega

theorem delete_nodup {α : Type} (c : InMemoryCache α) (k : String)
    (h : KeysNodup c.cache) : KeysNodup ((c.delete k).2).cache := by
  unfold InMemoryCache.delete
  split
  · exact eraseKey_nodup h
  · exact h

theorem delete_length_le {α : Type} (c : InMemoryCache α) (k : String) :
    ((c.delete k).2).cache.length ≤ c.cache.length := by
  unfold InMemoryCache.delete
  split
  · exact eraseKey_length_le k c.cache
  · exact le_refl _

theorem existsKey_nodup {α : Type} (c : InMemoryCache α) (k : String) (now : ℤ)
    (h : KeysNodup c.cache) : KeysNodup ((c.existsKey k now).2).cache := by
  unfold InMemoryCache.existsKey
  split
  next heq => exact h
  next item heq =>
    split
    · exact eraseKey_nodup h
    · exact h

theorem existsKey_length_le {α : Type} (c : InMemoryCache α) (k : String) (now : ℤ) :
    ((c.existsKey k now).2).cache.length ≤ c.cache.length := by
  unfold InMemoryCache.existsKey
  split
  next heq => exact le_refl _
  next item heq =>
    split
    · exact eraseKey_length_le k c.cache
    · exact le_refl _

theorem sweep_nodup {α : Type} (c : InMemoryCache α) (now : ℤ)
    (h : KeysNodup c.cache) : KeysNodup (c.sweep now).cache :=
  keysNodup_of_sublist (List.filter_sublist c.cache) h

theorem runOp_max_size {α : Type} (c : InMemoryCache α) (op : CacheOp α) :
    (c.runOp op).max_size = c.max_size := by
  cases op with
  | get key now => exact get_max_size c key now
  | set key value ttl now => rfl
  | delete key =>
      show ((c.delete key).2).max_size = c.max_size
      unfold InMemoryCache.delete
      split <;> rfl
  | existsKey key now =>
      show ((c.existsKey key now).2).max_size = c.max_size
      unfold InMemoryCache.existsKey
      split
      · rfl
      · split <;> rfl
  | clear => rfl
  | sweep now => rfl

theorem runOp_wf {α : Type} (c : InMemoryCache α) (op : CacheOp α)
    (hm : 1 ≤ c.max_size) (hnd : KeysNodup c.cache)
    (hlen : c.cache.length ≤ c.max_size) :
    KeysNodup (c.runOp op).cache ∧ (c.runOp op).cache.length ≤ c.max_size := by
  cases op with
  | get key now =>
      exact ⟨get_nodup c key now hnd, le_trans (get_length_le c key now) hlen⟩
  | set key value ttl now =>
      exact ⟨set_nodup c key value ttl now hnd, set_length_le c key value ttl now hm⟩
  | delete key =>
      exact ⟨delete_nodup c key hnd, le_trans (delete_length_le c key) hlen⟩
  | existsKey key now =>
      exact ⟨existsKey_nodup c key now hnd, le_trans (existsKey_length_le c key now) hlen⟩
  | clear =>
      exact ⟨List.nodup_nil, Nat.zero_le _⟩
  | sweep now =>
      exact ⟨sweep_nodup c now hnd,
        le_trans (List.length_filter_le _ _) hlen⟩

theorem runOps_wf {α : Type} (ops : List (CacheOp α)) :
    ∀ (c : InMemoryCache α), 1 ≤ c.max_size → KeysNodup c.cache →
      c.cache.length ≤ c.max_size →
      KeysNodup (c.runOps ops).cache ∧ (c.runOps ops).cache.length ≤ c.max_size ∧
        (c.runOps ops).max_size = c.max_size := by
  induction ops with
  | nil => exact fun c _ hnd hlen => ⟨hnd, hlen, rfl⟩
  | cons op rest ih =>
      intro c hm hnd hlen
      have hstep := runOp_wf c op hm hnd hlen
      have hms := runOp_max_size c op
      have := ih (c.runOp op) (by rw [hms]; exact hm) hstep.1 (by rw [hms]; exact hstep.2)
      refine ⟨this.1, ?_, ?_⟩
      · show ((c.runOp op).runOps rest).cache.length ≤ c.max_size
        rw [← hms]
        exact this.2.1
      · show ((c.runOp op).runOps rest).max_size = c.max_size
        rw [← hms]
        exact this.2.2

theorem getLast?_append_singleton {α : Type} (l : List α) (a : α) :
    (l ++ [a]).getLast? = some a := by
  rw [List.getLast?_append_cons l a []]
  rfl

/-- C6: LRU behavior of the in-memory cache.  (1) Starting from an empty
cache with positive capacity, no operation history pushes the size past
`max_size`.  (2) A `set` on a full cache evicts the oldest (front) entry.
(3) A successful `get` moves the touched entry, unchanged, to the
most-recently-used end, and (4) `set` always places its key there.
(5) Consequently an entry read while the cache is full (capacity at least
two) survives the eviction performed by the next insertion of a fresh key. -/
theorem inMemoryCache_lru (α : Type) :
    (∀ ms : ℕ, 1 ≤ ms → ∀ ops : List (CacheOp α),
        ((InMemoryCache.empty α ms).runOps ops).cache.length ≤ ms) ∧
    (∀ (c : InMemoryCache α) (k0 : String) (i0 : CacheItem α)
        (rest : List (String × CacheItem α)) (k : String) (v : α)
        (ttl : Option ℕ) (now : ℤ),
        KeysNodup c.cache → c.cache = (k0, i0) :: rest →
        c.cache.length = c.max_size → ¬ k0 = k →
        lookupKey k0 (c.set k v ttl now).cache = none) ∧
    (∀ (c : InMemoryCache α) (k : String) (now : ℤ) (v : α) (c' : InMemoryCache α),
        c.get k now = (some v, c') →
        ∃ item, lookupKey k c.cache = some item ∧ v = item.value ∧
          c'.cache = eraseKey k c.cache ++ [(k, item)]) ∧
    (∀ (c : InMemoryCache α) (k : String) (v : α) (ttl : Option ℕ) (now : ℤ),
        (c.set k v ttl now).cache.getLast? =
          some (k, { value := v, created_at := now, ttl := ttl })) ∧
    (∀ (c c' : InMemoryCache α) (k : String) (now : ℤ) (v : α)
        (k' : String) (v' : α) (ttl : Option ℕ) (now' : ℤ),
        KeysNodup c.cache → c.get k now = (some v, c') →
        c'.cache.length = c.max_size → 2 ≤ c.max_size → ¬ k' = k →
        (lookupKey k ((c'.set k' v' ttl now').cache)).isSome = true) := by
  refine ⟨?_, ?_, ?_, ?_, ?_⟩
  · intro ms hms ops
    have h := runOps_wf ops (InMemoryCache.empty α ms) hms
      (by simp [KeysNodup, InMemoryCache.empty]) (by simp [InMemoryCache.empty])
    exact h.2.1
  · intro c k0 i0 rest k v ttl now hnd hc hlen hne
    rw [set_cache_eq, hc]
    have hcond : c.max_size ≤ ((k0, i0) :: rest).length := by
      rw [← hc, hlen]
    have hev : evictWhile c.max_size ((k0, i0) :: rest) = evictWhile c.max_size rest := by
      rw [evictWhile, if_pos hcond]
    rw [hev]
    have hk0rest : k0 ∉ rest.map Prod.fst := by
      have := hnd
      rw [hc] at this
      unfold KeysNodup at this
      simp only [List.map_cons, List.nodup_cons] at this
      exact this.1
    have hk0ev : k0 ∉ (evictWhile c.max_size rest).map Prod.fst := fun hm =>
      hk0rest (((evictWhile_sublist c.max_size rest).map Prod.fst).subset hm)
    have hk0er : k0 ∉ (eraseKey k (evictWhile c.max_size rest)).map Prod.fst := fun hm =>
      hk0ev (eraseKey_keys_subset k _ hm)
    rw [lookupKey_append_none _ ((lookupKey_eq_none_iff _ _).mpr hk0er)]
    simp only [lookupKey]
    rw [if_neg (fun h => hne (Eq.symm h))]
  · intro c k now v c' h
    obtain ⟨item, hl, _, hv, hcache, _⟩ := get_spec c k now v c' h
    exact ⟨item, hl, hv, hcache⟩
  · intro c k v ttl now
    rw [set_cache_eq]
    exact getLast?_append_singleton _ _
  · intro c c' k now v k' v' ttl now' hnd hget hlen h2 hk'
    obtain ⟨item, hl, hexp, hv, hcache, hms⟩ := get_spec c k now v c' hget
    have herlen : (eraseKey k c.cache).length + 1 = c.max_size := by
      rw [← hlen, hcache]
      simp
    obtain ⟨e0, es, he⟩ : ∃ e0 es, eraseKey k c.cache = e0 :: es := by
      rcases herase : eraseKey k c.cache with _ | ⟨e0, es⟩
      · rw [herase] at herlen
        simp at herlen
        omega
      · exact ⟨e0, es, rfl⟩
    have hc'c : c'.cache = e0 :: (es ++ [(k, item)]) := by
      rw [hcache, he]
      rfl
    have hcond2 : c'.max_size ≤ (e0 :: (es ++ [(k, item)])).length := by
      rw [← hc'c, hlen, hms]
    have hev : evictWhile c'.max_size c'.cache = es ++ [(k, item)] := by
      rw [hc'c, evictWhile, if_pos hcond2]
      apply evictWhile_eq_self
      have hlen2 : (es ++ [(k, item)]).length + 1 = c.max_size := by
        rw [← hlen, hc'c]
        simp
      rw [hms]
      omega
    have hkev : k ∈ (es ++ [(k, item)]).map Prod.fst := by
      simp
    have hker : k ∈ (eraseKey k' (es ++ [(k, item)])).map Prod.fst :=
      mem_keys_eraseKey (fun hkk => hk' hkk.symm) hkev
    rw [set_cache_eq, hev]
    obtain ⟨w, hw⟩ : ∃ w, lookupKey k (eraseKey k' (es ++ [(k, item)])) = some w := by
      rcases hlk : lookupKey k (eraseKey k' (es ++ [(k, item)])) with _ | w
      · exact absurd ((lookupKey_eq_none_iff _ _).mp hlk) (fun hn => hn hker)
      · exact ⟨w, rfl⟩
    rw [lookupKey_append_some _ hw]
    rfl

/-- Witness for C6: a capacity-2 history stays within bounds; on the full
two-entry cache a fresh insert evicts the front key "a"; after touching "b"
with `get`, inserting fresh "c" evicts "a" but keeps "b". -/
theorem inMemoryCache_lru_witness :
    ((InMemoryCache.empty ℕ 2).runOps
        [CacheOp.set "x" 1 none 0, CacheOp.set "y" 2 none 1, CacheOp.get "x" 2,
         CacheOp.set "z" 3 none 3, CacheOp.delete "y"]).cache.length ≤ 2 ∧
    lookupKey "a"
      (InMemoryCache.set
        { cache := [("a", { value := 1, created_at := 0, ttl := none }),
                    ("b", { value := 2, created_at := 0, ttl := none })], max_size := 2 }
        "c" 3 none 5).cache = none ∧
    (lookupKey "b"
      ((InMemoryCache.set
        { cache := [("a", { value := 1, created_at := 0, ttl := none }),
                    ("b", { value := 2, created_at := 0, ttl := none })], max_size := 2 }
        "c" 3 none 6).cache)).isSome = true := by
  obtain ⟨h1, h2, _, _, h5⟩ := inMemoryCache_lru ℕ
  refine ⟨h1 2 (by decide) _,
    h2 { cache := [("a", { value := 1, created_at := 0, ttl := none }),
                   ("b", { value := 2, created_at := 0, ttl := none })], max_size := 2 }
      "a" { value := 1, created_at := 0, ttl := none }
      [("b", { value := 2, created_at := 0, ttl := none })] "c" 3 none 5
      (by decide) rfl (by decide) (by decide),
    h5 { cache := [("a", { value := 1, created_at := 0, ttl := none }),
                   ("b", { value := 2, created_at := 0, ttl := none })], max_size := 2 }
       { cache := [("a", { value := 1, created_at := 0, ttl := none }),
                   ("b", { value := 2, created_at := 0, ttl := none })], max_size := 2 }
      "b" 4 2 "c" 3 none 6 (by decide) (by decide) (by decide) (by decide) (by decide)⟩

/-- C4: rate-limiter windowing.  A fresh (or expired) window allows and
stores counter 1 with TTL `window_seconds`; a live window below the budget
allows and stores the incremented counter; at or above the budget it denies
and stores nothing; `get_remaining` reports the floored remainder, or the
full budget with no counter. -/
theorem rateLimiter_window (c : InMemoryCache ℕ) (identifier : String)
    (max_requests window_seconds : ℕ) (now : ℤ) (hnd : KeysNodup c.cache) :
    ((c.get (rateLimitKey identifier window_seconds) now).1 = none →
      (RateLimiter.is_allowed c identifier max_requests window_seconds now).1 = true ∧
      lookupKey (rateLimitKey identifier window_seconds)
        ((RateLimiter.is_allowed c identifier max_requests window_seconds now).2).cache =
        some { value := 1, created_at := now, ttl := some window_seconds }) ∧
    (∀ n : ℕ, (c.get (rateLimitKey identifier window_seconds) now).1 = some n →
      n < max_requests →
      (RateLimiter.is_allowed c identifier max_requests window_seconds now).1 = true ∧
      lookupKey (rateLimitKey identifier window_seconds)
        ((RateLimiter.is_allowed c identifier max_requests window_seconds now).2).cache =
        some { value := n + 1, created_at := now, ttl := some window_seconds }) ∧
    (∀ n : ℕ, (c.get (rateLimitKey identifier window_seconds) now).1 = some n →
      max_requests ≤ n →
      RateLimiter.is_allowed c identifier max_requests window_seconds now =
        (false, (c.get (rateLimitKey identifier window_seconds) now).2)) ∧
    ((c.get (rateLimitKey identifier window_seconds) now).1 = none →
      (RateLimiter.get_remaining c identifier max_requests window_seconds now).1 =
        (max_requests : ℤ)) ∧
    (∀ n : ℕ, (c.get (rateLimitKey identifier window_seconds) now).1 = some n →
      (RateLimiter.get_remaining c identifier max_requests window_seconds now).1 =
        max 0 ((max_requests : ℤ) - (n : ℤ))) := by
  rcases hp : c.get (rateLimitKey identifier window_seconds) now with ⟨r, c1⟩
  have hc1nd : KeysNodup c1.cache := by
    have := get_nodup c (rateLimitKey identifier window_seconds) now hnd
    rw [hp] at this
    exact this
  refine ⟨?_, ?_, ?_, ?_, ?_⟩
  · intro h
    simp only at h
    subst h
    simp only [RateLimiter.is_allowed, hp]
    exact ⟨trivial, set_lookup_self c1 _ 1 (some window_seconds) now hc1nd⟩
  · intro n h hlt
    simp only at h
    subst h
    simp only [RateLimiter.is_allowed, hp]
    rw [if_neg (not_le.mpr hlt)]
    exact ⟨rfl, set_lookup_self c1 _ (n + 1) (some window_seconds) now hc1nd⟩
  · intro n h hge
    simp only at h
    subst h
    simp only [RateLimiter.is_allowed, hp]
    rw [if_pos hge]
  · intro h
    simp only at h
    subst h
    simp only [RateLimiter.get_remaining, hp]
  · intro n h
    simp only at h
    subst h
    simp only [RateLimiter.get_remaining, hp]

/-- Witness for C4: three allowed calls with budget 3, the fourth denied,
and `get_remaining` reaching 0. -/
theorem rateLimiter_window_witness :
    KeysNodup (InMemoryCache.empty ℕ 10000).cache ∧
    ((InMemoryCache.empty ℕ 10000).get (rateLimitKey "id" 60) 0).1 = none ∧
    ((RateLimiter.is_allowed (InMemoryCache.empty ℕ 10000) "id" 3 60 0).1 = true ∧
      lookupKey (rateLimitKey "id" 60)
        ((RateLimiter.is_allowed (InMemoryCache.empty ℕ 10000) "id" 3 60 0).2).cache =
        some { value := 1, created_at := 0, ttl := some 60 }) ∧
    (RateLimiter.is_allowed
        { cache := [(rateLimitKey "id" 60, { value := 3, created_at := 2, ttl := some 60 })]
          , max_size := 10000 } "id" 3 60 3 =
      (false, (InMemoryCache.get
        { cache := [(rateLimitKey "id" 60, { value := 3, created_at := 2, ttl := some 60 })]
          , max_size := 10000 } (rateLimitKey "id" 60) 3).2)) ∧
    (RateLimiter.get_remaining
        { cache := [(rateLimitKey "id" 60, { value := 3, created_at := 2, ttl := some 60 })]
          , max_size := 10000 } "id" 3 60 3).1 = max 0 ((3 : ℤ) - (3 : ℤ)) := by
  refine ⟨by decide, by decide, ?_, ?_, ?_⟩
  · exact (rateLimiter_window (InMemoryCache.empty ℕ 10000) "id" 3 60 0 (by decide)).1
      (by decide)
  · exact (rateLimiter_window
      { cache := [(rateLimitKey "id" 60, { value := 3, created_at := 2, ttl := some 60 })]
        , max_size := 10000 } "id" 3 60 3 (by decide)).2.2.1 3 (by decide) (by decide)
  · exact (rateLimiter_window
      { cache := [(rateLimitKey "id" 60, { value := 3, created_at := 2, ttl := some 60 })]
        , max_size := 10000 } "id" 3 60 3 (by decide)).2.2.2.2 3 (by decide)

/-- C9: every allowed non-first call stores the incremented counter as a
brand-new item created at the time of that call, so it expires
`window_seconds` after the most recent allowed request, not after the first
one — a client calling more often than once per window keeps its counter
alive indefinitely. -/
theorem rateLimiter_counter_ttl_slides (c : InMemoryCache ℕ) (identifier : String)
    (max_requests window_seconds : ℕ) (now : ℤ) (n : ℕ) (c1 : InMemoryCache ℕ)
    (hnd : KeysNodup c.cache)
    (hget : c.get (rateLimitKey identifier window_seconds) now = (some n, c1))
    (hlt : n < max_requests) :
    (RateLimiter.is_allowed c identifier max_requests window_seconds now).1 = true ∧
    lookupKey (rateLimitKey identifier window_seconds)
      ((RateLimiter.is_allowed c identifier max_requests window_seconds now).2).cache =
      some { value := n + 1, created_at := now, ttl := some window_seconds } ∧
    (∀ t : ℤ, t - now ≤ (window_seconds : ℤ) →
      CacheItem.is_expired
        { value := n + 1, created_at := now, ttl := some window_seconds } t = false) ∧
    (∀ t : ℤ, (window_seconds : ℤ) < t - now →
      CacheItem.is_expired
        { value := n + 1, created_at := now, ttl := some window_seconds } t = true) := by
  have hc1nd : KeysNodup c1.cache := by
    have := get_nodup c (rateLimitKey identifier window_seconds) now hnd
    rw [hget] at this
    exact this
  refine ⟨?_, ?_, ?_, ?_⟩
  · simp only [RateLimiter.is_allowed, hget]
    rw [if_neg (not_le.mpr hlt)]
  · simp only [RateLimiter.is_allowed, hget]
    rw [if_neg (not_le.mpr hlt)]
    exact set_lookup_self c1 _ (n + 1) (some window_seconds) now hc1nd
  · intro t ht
    simp only [CacheItem.is_expired]
    exact decide_eq_false (not_lt.mpr ht)
  · intro t ht
    simp only [CacheItem.is_expired]
    exact decide_eq_true ht

/-- Witness for C9: window 60 opened at t=0; a second allowed call at t=59
stores a counter created at 59, still alive at t=100 (41 seconds after the
second call) although an item created at t=0 would already be expired. -/
theorem rateLimiter_counter_ttl_slides_witness :
    KeysNodup
      ({ cache := [(rateLimitKey "id" 60, { value := 1, created_at := 0, ttl := some 60 })]
         , max_size := 10000 } : InMemoryCache ℕ).cache ∧
    InMemoryCache.get
      { cache := [(rateLimitKey "id" 60, { value := 1, created_at := 0, ttl := some 60 })]
        , max_size := 10000 } (rateLimitKey "id" 60) 59 =
      (some 1,
        { cache := [(rateLimitKey "id" 60, { value := 1, created_at := 0, ttl := some 60 })]
          , max_size := 10000 }) ∧
    1 < 3 ∧
    lookupKey (rateLimitKey "id" 60)
      ((RateLimiter.is_allowed
        { cache := [(rateLimitKey "id" 60, { value := 1, created_at := 0, ttl := some 60 })]
          , max_size := 10000 } "id" 3 60 59).2).cache =
      some { value := 2, created_at := 59, ttl := some 60 } ∧
    CacheItem.is_expired { value := 2, created_at := 59, ttl := some 60 } 100 = false ∧
    CacheItem.is_expired
      ({ value := 1, created_at := 0, ttl := some 60 } : CacheItem ℕ) 100 = true := by
  refine ⟨by decide, by decide, by decide, ?_, ?_, by decide⟩
  · exact (rateLimiter_counter_ttl_slides
      { cache := [(rateLimitKey "id" 60, { value := 1, created_at := 0, ttl := some 60 })]
        , max_size := 10000 } "id" 3 60 59 1
      { cache := [(rateLimitKey "id" 60, { value := 1, created_at := 0, ttl := some 60 })]
        , max_size := 10000 } (by decide) (by decide) (by decide)).2.1
  · exact (rateLimiter_counter_ttl_slides
      { cache := [(rateLimitKey "id" 60, { value := 1, created_at := 0, ttl := some 60 })]
        , max_size := 10000 } "id" 3 60 59 1
      { cache := [(rateLimitKey "id" 60, { value := 1, created_at := 0, ttl := some 60 })]
        , max_size := 10000 } (by decide) (by decide) (by decide)).2.2.1 100 (by decide)

/-! ### C1: the chat endpoint with the disabled RAG module -/

/-- C1 counterexample: the message "I forgot my password for user@example.com"
on a fresh session yields a dialogue state (password_reset, turn 1) that does
not trigger handoff, yet the endpoint answers HTTP 500 instead of the claimed
generated-response body, because the router's `rag_module` is `None`. -/
theorem send_message_rag_disabled_counterexample :
    (send_message [] chatRagModule "fresh"
      { message := "I forgot my password for user@example.com", session_id := some "s1" }).1 =
      [("s1", { session_id := "s1", user_id := none,
                current_intent := some Intent.password_reset, turn_count := 1,
                entities_collected := [("email", "user@example.com")],
                awaiting_info := none, handoff_requested := false })] ∧
    DialogueManager.should_handoff
      { session_id := "s1", user_id := none,
        current_intent := some Intent.password_reset, turn_count := 1,
        entities_collected := [("email", "user@example.com")],
        awaiting_info := none, handoff_requested := false } = false ∧
    (send_message [] chatRagModule "fresh"
      { message := "I forgot my password for user@example.com", session_id := some "s1" }).2 =
      ChatOutcome.httpError 500 "Failed to process message" :=
  ⟨by decide, by decide, by decide⟩

/-- C1 (amended): for every request whose updated dialogue state does not
trigger handoff, the endpoint — running with the router's `rag_module = None`
(RAG disabled pending vector-store setup) — fails with HTTP 500
"Failed to process message"; the NLU session-state update still occurs. -/
theorem send_message_rag_disabled (sessions : List (String × DialogueState))
    (fresh_id : String) (msg : ChatMessage)
    (h : ∀ st, lookupKey (msg.session_id.getD fresh_id)
        (NLPEngine.process_message sessions msg.message (msg.session_id.getD fresh_id)
          msg.user_id).1 = some st →
        DialogueManager.should_handoff st = false) :
    (send_message sessions chatRagModule fresh_id msg).2 =
      ChatOutcome.httpError 500 "Failed to process message" := by
  rcases hl : lookupKey (msg.session_id.getD fresh_id)
      (NLPEngine.process_message sessions msg.message (msg.session_id.getD fresh_id)
        msg.user_id).1 with _ | st
  · simp only [send_message, chatRagModule, hl]
  · have hsh := h st hl
    simp only [send_message, chatRagModule, hl, hsh]
    simp

/-- Witness for C1's amended theorem at the counterexample input. -/
theorem send_message_rag_disabled_witness :
    (∀ st, lookupKey "s1"
        (NLPEngine.process_message [] "I forgot my password for user@example.com" "s1"
          none).1 = some st →
        DialogueManager.should_handoff st = false) ∧
    (send_message [] chatRagModule "fresh"
      { message := "I forgot my password for user@example.com", session_id := some "s1" }).2 =
      ChatOutcome.httpError 500 "Failed to process message" := by
  have hyp : ∀ st, lookupKey "s1"
      (NLPEngine.process_message [] "I forgot my password for user@example.com" "s1"
        none).1 = some st →
      DialogueManager.should_handoff st = false := by
    intro st hst
    have he : lookupKey "s1"
        (NLPEngine.process_message [] "I forgot my password for user@example.com" "s1"
          none).1 =
        some { session_id := "s1", user_id := none,
               current_intent := some Intent.password_reset, turn_count := 1,
               entities_collected := [("email", "user@example.com")],
               awaiting_info := none, handoff_requested := false } := by decide
    rw [he] at hst
    have hid := Option.some.inj hst
    rw [← hid]
    decide
  exact ⟨hyp, send_message_rag_disabled [] "fresh"
    { message := "I forgot my password for user@example.com", session_id := some "s1" } hyp⟩

/-! ### C7: validator aggregation and the orchestrator's safe fallback -/

/-- Unfolding equation of `EnhancedRAG.process` in safety mode. -/
theorem process_safety_eq (query : String) (context : RagContext) :
    EnhancedRAG.process query context true =
      (let refined := QueryRefiner.refine_query query context
       let rr := SemanticRetriever.retrieve refined 5
       let response := ResponseGenerator.generate refined rr.documents (some context)
       let v := ResponseValidator.validate response rr.documents query
       { response := if v.1 then response else safeFallbackResponse
         confidence := v.2.confidence
         sources := rr.documents.map (fun d => d.id)
         validation_passed := v.1
         metadata := { refined_query := refined, retrieval_scores := rr.scores,
                       validation_details := some v.2,
                       document_count := rr.documents.length } }) := rfl

/-- C7: (a) the validator's aggregate `is_valid` is true exactly when all
four safety checks pass, and the reported confidence is the passed count
over four; (b) with safety mode on, a failed validation replaces the
response wholesale with the fixed apology/handoff-offer text while the
result still reports the real run's source document ids, retrieval scores,
validator confidence, and validation metadata. -/
theorem ragValidation_aggregate_and_fallback :
    (∀ (response : String) (docs : List Document) (query : String),
      ((ResponseValidator.validate response docs query).1 = true ↔
        (checkNoHallucination response docs = none ∧
         checkNoSensitiveInfo response = none ∧
         checkAppropriateConfidence response docs = none ∧
         checkNoHarmfulContent response = none)) ∧
      (ResponseValidator.validate response docs query).2.confidence =
        ((if checkNoHallucination response docs = none then (1 : ℚ) else 0) +
          ((if checkNoSensitiveInfo response = none then (1 : ℚ) else 0) +
          ((if checkAppropriateConfidence response docs = none then (1 : ℚ) else 0) +
          (if checkNoHarmfulContent response = none then (1 : ℚ) else 0)))) / 4) ∧
    (∀ (query : String) (context : RagContext),
      (EnhancedRAG.process query context true).validation_passed = false →
      (EnhancedRAG.process query context true).response = safeFallbackResponse ∧
      (EnhancedRAG.process query context true).sources =
        (SemanticRetriever.retrieve (QueryRefiner.refine_query query context) 5).documents.map
          (fun d => d.id) ∧
      (EnhancedRAG.process query context true).metadata.retrieval_scores =
        (SemanticRetriever.retrieve (QueryRefiner.refine_query query context) 5).scores ∧
      (EnhancedRAG.process query context true).metadata.validation_details =
        some (ResponseValidator.validate
          (ResponseGenerator.generate (QueryRefiner.refine_query query context)
            (SemanticRetriever.retrieve (QueryRefiner.refine_query query context) 5).documents
            (some context))
          (SemanticRetriever.retrieve (QueryRefiner.refine_query query context) 5).documents
          query).2 ∧
      (EnhancedRAG.process query context true).confidence =
        (ResponseValidator.validate
          (ResponseGenerator.generate (QueryRefiner.refine_query query context)
            (SemanticRetriever.retrieve (QueryRefiner.refine_query query context) 5).documents
            (some context))
          (SemanticRetriever.retrieve (QueryRefiner.refine_query query context) 5).documents
          query).2.confidence) := by
  constructor
  · intro response docs query
    rcases h1 : checkNoHallucination response docs with _ | r1 <;>
      rcases h2 : checkNoSensitiveInfo response with _ | r2 <;>
        rcases h3 : checkAppropriateConfidence response docs with _ | r3 <;>
          rcases h4 : checkNoHarmfulContent response with _ | r4 <;>
            simp [ResponseValidator.validate, safetyChecks, h1, h2, h3, h4,
              List.filter, List.filterMap] <;> norm_num
  · intro query context h
    rw [process_safety_eq] at h ⊢
    dsimp only at h ⊢
    rw [h]
    exact ⟨by simp, rfl, rfl, rfl, rfl⟩

/-- A shared query/content word makes the mock relevance score positive. -/
theorem calculateRelevance_pos (q c w : String)
    (hw1 : w ∈ (pyWords (lowerStr q)).dedup) (hw2 : w ∈ (pyWords (lowerStr c)).dedup) :
    0 < calculateRelevance q c := by
  simp only [calculateRelevance]
  have hne : ¬ (pyWords (lowerStr q)).dedup = [] := by
    intro h
    rw [h] at hw1
    simp at hw1
  rw [if_neg hne]
  apply div_pos
  · have hmem : w ∈ (pyWords (lowerStr q)).dedup.filter
        (fun x => x ∈ (pyWords (lowerStr c)).dedup) :=
      List.mem_filter.mpr ⟨hw1, by simpa using hw2⟩
    have hlen : 0 < ((pyWords (lowerStr q)).dedup.filter
        (fun x => x ∈ (pyWords (lowerStr c)).dedup)).length :=
      List.length_pos.mpr (fun hnil => by rw [hnil] at hmem; simp at hmem)
    exact_mod_cast hlen
  · have hlen : 0 < (pyWords (lowerStr q)).dedup.length := List.length_pos.mpr hne
    exact_mod_cast hlen

/-- With no shared word the mock relevance score is zero. -/
theorem calculateRelevance_zero (q c : String)
    (h : ∀ w ∈ (pyWords (lowerStr q)).dedup, w ∉ (pyWords (lowerStr c)).dedup) :
    calculateRelevance q c = 0 := by
  simp only [calculateRelevance]
  by_cases hq : (pyWords (lowerStr q)).dedup = []
  · rw [if_pos hq]
  · rw [if_neg hq]
    have hnil : ((pyWords (lowerStr q)).dedup.filter
        (fun w => w ∈ (pyWords (lowerStr c)).dedup)) = [] :=
      List.filter_eq_nil_iff.mpr (fun w hw hmem => h w hw (by simpa using hmem))
    rw [hnil]
    simp

/-- The fallback retriever on query "reset" returns exactly the password
reset guide document. -/
theorem retrieve_reset_eq :
    SemanticRetriever.retrieve "reset" 5 =
      { documents :=
          [{ id := "doc1"
           , content := "To reset your password, click on 'Forgot Password' on the login page."
           , title := "Password Reset Guide"
           , source := "knowledge_base"
           , metadata := [("category", "authentication"), ("last_updated", "2024-01-15")] }]
      , scores := [calculateRelevance "reset"
          "To reset your password, click on 'Forgot Password' on the login page."]
      , query := "reset", refined_query := "reset" } := by
  have hrel1 : (0 : ℚ) < calculateRelevance "reset"
      "To reset your password, click on 'Forgot Password' on the login page." :=
    calculateRelevance_pos _ _ "reset" (by decide) (by decide)
  have hrel2 : calculateRelevance "reset"
      "Our IT support services include 24/7 monitoring, incident response, and system maintenance." = 0 :=
    calculateRelevance_zero _ _ (by decide)
  simp only [SemanticRetriever.retrieve, mockDocuments, List.filterMap_cons, List.filterMap_nil]
  rw [if_pos hrel1, if_neg (by rw [hrel2]; exact lt_irrefl 0)]
  rfl

/-- Witness for C7: on query "reset" the generated response quotes the
password-reset document, the sensitive-info check fails on "password",
validation fails, and the orchestrator substitutes the apology text while
still citing doc1. -/
theorem ragValidation_aggregate_and_fallback_witness :
    (EnhancedRAG.process "reset"
      { intent := some "password_reset", entities := [], session_id := some "s1",
        turn_count := some 1, previous_intent := none } true).validation_passed = false ∧
    (EnhancedRAG.process "reset"
      { intent := some "password_reset", entities := [], session_id := some "s1",
        turn_count := some 1, previous_intent := none } true).response = safeFallbackResponse ∧
    (EnhancedRAG.process "reset"
      { intent := some "password_reset", entities := [], session_id := some "s1",
        turn_count := some 1, previous_intent := none } true).sources = ["doc1"] := by
  have hrefine : QueryRefiner.refine_query "reset"
      { intent := some "password_reset", entities := [], session_id := some "s1",
        turn_count := some 1, previous_intent := none } = "reset" := by decide
  have hchk2 : checkNoSensitiveInfo ("Based on our documentation: " ++
      "To reset your password, click on 'Forgot Password' on the login page.") =
      some "Response contains sensitive information: password" := by decide
  have hvalid : (ResponseValidator.validate
      ("Based on our documentation: " ++
        "To reset your password, click on 'Forgot Password' on the login page.")
      [{ id := "doc1"
       , content := "To reset your password, click on 'Forgot Password' on the login page."
       , title := "Password Reset Guide"
       , source := "knowledge_base"
       , metadata := [("category", "authentication"), ("last_updated", "2024-01-15")] }]
      "reset").1 = false := by
    cases hb : (ResponseValidator.validate
      ("Based on our documentation: " ++
        "To reset your password, click on 'Forgot Password' on the login page.")
      [{ id := "doc1"
       , content := "To reset your password, click on 'Forgot Password' on the login page."
       , title := "Password Reset Guide"
       , source := "knowledge_base"
       , metadata := [("category", "authentication"), ("last_updated", "2024-01-15")] }]
      "reset").1 with
    | false => rfl
    | true =>
        have hall := ((ragValidation_aggregate_and_fallback.1 _ _ _).1).mp hb
        rw [hchk2] at hall
        exact absurd hall.2.1 (by simp)
  have hvp : (EnhancedRAG.process "reset"
      { intent := some "password_reset", entities := [], session_id := some "s1",
        turn_count := some 1, previous_intent := none } true).validation_passed = false := by
    rw [process_safety_eq]
    dsimp only
    rw [hrefine, retrieve_reset_eq]
    exact hvalid
  have hmain := ragValidation_aggregate_and_fallback.2 "reset"
    { intent := some "password_reset", entities := [], session_id := some "s1",
      turn_count := some 1, previous_intent := none } hvp
  refine ⟨hvp, hmain.1, ?_⟩
  rw [hmain.2.1, hrefine, retrieve_reset_eq]
  rfl
